import Mathlib

/-!
Verification of the AssessAI interview chatbot core.

Shallow embedding of the Python sources of ShubhaMahobia/AssessAI:

* `src/utils/validators.py`      → `validate_email`, `validate_phone`, `validate_input`
* `src/utils/tech_parser.py`     → `parse_tech_stack`, `parse_questions_from_response`,
                                   `get_default_questions`
* `src/interview/state_manager.py` → `InterviewState` and its operations
* `src/interview/question_generator.py` → `generate_tech_questions`
* `src/chatbot_controller.py`    → `Chatbot`, `process_user_input` and its helpers
* `src/database/models.py`       → modelled as an event log of persistence calls

Conventions of the embedding:

* Python strings are `String`; `str.strip` / `str.lower` / `str.split` are modelled by
  `pyStrip` / `pyLower` / the `splitOnPList` helpers over `List Char`.  Unicode-aware
  behaviour of Python (`str.lower`, `\w` in regexes) is approximated by its ASCII
  fragment; no claim depends on non-ASCII input.
* Python dictionaries (insertion ordered, assignment overwrites in place) are
  association lists with `dictGet` / `dictSet`.
* The generation collaborator (`LLMClient.generate_response`, which returns the
  stripped response text and `""` on any exception or empty answer) is an arbitrary
  pure function `Oracle` from the template key and its parameters to the raw response
  text; `""` models failure.  `random.choice` is modelled by an arbitrary natural
  number supplied per turn (`Env.rand`).
* The database manager is modelled by appending each `create_candidate` /
  `store_interview_responses` call to an event log inside the controller state;
  `uuid.uuid4()` is abstracted to a fresh non-empty identifier.
* Exceptions of the Python runtime are `PyErr`; a turn returns the mutated state
  together with `Except PyErr String`, since mutations made before a raise persist
  on the controller object.
-/

set_option maxRecDepth 20000

namespace AssessAI

/-! Section: Python-flavoured string and dictionary helpers -/

/-- Characters of the Python whitespace class, as used by the default string strip
and split operations, restricted to ASCII. -/
def pyIsSpace (ch : Char) : Bool :=
  ch == ' ' || ch == '\t' || ch == '\n' || ch == '\r' || ch == '\x0b' || ch == '\x0c'

/-- Characters matched by the regex class `\w` (ASCII fragment). -/
def isWordChar (ch : Char) : Bool :=
  ch.isAlphanum || ch == '_'

def ofChars (cs : List Char) : String := String.mk cs

/-- Embedding of `str.strip()` (ASCII whitespace). -/
def pyStrip (s : String) : String :=
  ofChars (((s.data.dropWhile pyIsSpace).reverse.dropWhile pyIsSpace).reverse)

/-- Embedding of `str.lower()` (ASCII fragment). -/
def pyLower (s : String) : String :=
  ofChars (s.data.map Char.toLower)

/-- Split a character list at every character satisfying `p`, keeping empty chunks
(the behaviour of `str.split(sep)` for a single-character separator). -/
def splitOnPList (p : Char → Bool) : List Char → List (List Char)
  | [] => [[]]
  | c :: rest =>
    match splitOnPList p rest with
    | [] => [[]]
    | h :: t => if p c then [] :: h :: t else (c :: h) :: t

/-- Embedding of `str.split(sep)` for a one-character separator. -/
def pySplitChar (sep : Char) (s : String) : List String :=
  (splitOnPList (fun c => c == sep) s.data).map ofChars

/-- Embedding of `str.split()` with no argument: split on whitespace runs, dropping empty chunks. -/
def pySplitWs (s : String) : List String :=
  ((splitOnPList pyIsSpace s.data).filter (fun cs => cs ≠ [])).map ofChars

/-- Embedding of `pat in s` for strings (substring test); only used with non-empty patterns. -/
def listHasSub (pat : List Char) : List Char → Bool
  | [] => pat.isPrefixOf ([] : List Char)
  | c :: rest => pat.isPrefixOf (c :: rest) || listHasSub pat rest

def pyContains (s pat : String) : Bool :=
  listHasSub pat.data s.data

/-- One fuel-indexed step list of `str.replace`; fuel ≥ length of the subject suffices
because every step consumes at least one character. -/
def listReplaceFuel (pat repl : List Char) : Nat → List Char → List Char
  | _, [] => []
  | 0, s => s
  | Nat.succ fuel, c :: rest =>
    if pat ≠ [] && pat.isPrefixOf (c :: rest) then
      repl ++ listReplaceFuel pat repl fuel ((c :: rest).drop pat.length)
    else
      c :: listReplaceFuel pat repl fuel rest

/-- Embedding of `str.replace(pat, repl)` (all occurrences, left to right). -/
def pyReplace (s pat repl : String) : String :=
  ofChars (listReplaceFuel pat.data repl.data s.data.length s.data)

/-- Embedding of `s.startswith(pat)`. -/
def pyStartsWith (s pat : String) : Bool :=
  pat.data.isPrefixOf s.data

/-- Python `dict` lookup on an insertion-ordered association list. -/
def dictGet {K V : Type} [DecidableEq K] : List (K × V) → K → Option V
  | [], _ => none
  | (k, v) :: rest, key => if k = key then some v else dictGet rest key

def dictGetD {K V : Type} [DecidableEq K] (d : List (K × V)) (key : K) (dflt : V) : V :=
  (dictGet d key).getD dflt

/-- Python `dict` assignment: overwrite in place, or append a new binding. -/
def dictSet {K V : Type} [DecidableEq K] : List (K × V) → K → V → List (K × V)
  | [], key, val => [(key, val)]
  | (k, v) :: rest, key, val =>
    if k = key then (key, val) :: rest else (k, v) :: dictSet rest key val

/-- Python `list.index`: position of the first occurrence, `none` in place of the
`ValueError` raised when the element is absent. -/
def listIndex {α : Type} [DecidableEq α] : List α → α → Option Nat
  | [], _ => none
  | a :: rest, x => if a = x then some 0 else (listIndex rest x).map (· + 1)

/-! Section: `src/utils/validators.py` -/

/-- Core of the anchored email regex of `validate_email`, without the
trailing-newline allowance of the dollar anchor: exactly one at-sign; a non-empty
run of word, dot or dash characters before it; after it a non-empty such run, a
dot, and a non-empty word-character run.  Backtracking makes the matched dot the
last dot of the domain part. -/
def emailCore (cs : List Char) : Bool :=
  match splitOnPList (fun c => c == '@') cs with
  | [localPart, domain] =>
    localPart ≠ [] && localPart.all (fun c => isWordChar c || c == '.' || c == '-') &&
    (let tld := (domain.reverse.takeWhile (fun c => c ≠ '.')).reverse
     let pre := domain.take (domain.length - tld.length - 1)
     tld.length < domain.length &&
     pre ≠ [] && pre.all (fun c => isWordChar c || c == '.' || c == '-') &&
     tld ≠ [] && tld.all isWordChar)
  | _ => false

/-- A dollar anchor in a Python regex (without MULTILINE) also matches just before
one trailing newline; `reMatchDollar core s` models the boolean result of
`re.match` for a fully anchored pattern. -/
def reMatchDollar (core : List Char → Bool) (s : String) : Bool :=
  core s.data ||
    (match s.data.getLast? with
     | some '\n' => core s.data.dropLast
     | _ => false)

/-- Embedding of `validate_email` (src/utils/validators.py lines 5-15). -/
def validate_email (email : String) : Bool :=
  reMatchDollar emailCore email

/-- Core of the anchored phone regex of `validate_phone`, without the
trailing-newline allowance: 7 to 20 characters, each a digit, whitespace, dash,
parenthesis or plus sign. -/
def phoneCore (cs : List Char) : Bool :=
  7 ≤ cs.length && cs.length ≤ 20 &&
    cs.all (fun c => c.isDigit || pyIsSpace c || c == '-' || c == '(' || c == ')' || c == '+')

/-- Embedding of `validate_phone` (src/utils/validators.py lines 18-29). -/
def validate_phone (phone : String) : Bool :=
  reMatchDollar phoneCore phone

structure ValidationResult where
  valid : Bool
  field_type : String
  error : String
deriving Repr, DecidableEq

/-- Embedding of `validate_input` (src/utils/validators.py lines 32-59).  The valid
case carries empty `field_type`/`error` values, matching the defaulted dictionary
reads in the controller. -/
def validate_input (current_step : String) (user_input : String) : ValidationResult :=
  if current_step = "email" then
    if !validate_email user_input then
      { valid := false
        field_type := "email address"
        error := "That doesn\x27t appear to be a valid email address. Please provide a valid email in the format example@domain.com." }
    else { valid := true, field_type := "", error := "" }
  else if current_step = "phone" then
    if !validate_phone user_input then
      { valid := false
        field_type := "phone number"
        error := "That doesn\x27t appear to be a valid phone number. Please provide a valid phone number." }
    else { valid := true, field_type := "", error := "" }
  else { valid := true, field_type := "", error := "" }

/-! Section: `src/utils/tech_parser.py` -/

/-- Embedding of `parse_tech_stack` (src/utils/tech_parser.py lines 5-28). -/
def parse_tech_stack (tech_stack_input : String) (max_techs : Nat := 4) : List String :=
  let technologies := (pySplitChar ',' tech_stack_input).map (fun tech => pyLower (pyStrip tech))
  let technologies := technologies.filter (fun tech => tech ≠ "")
  let technologies := technologies.take max_techs
  if technologies = [] then ["general"] else technologies

/-- Embedding of the regex substitution in `parse_questions_from_response` that
removes the leading numbering: it fires only when the line starts with at least one
digit; the digits, one optional dot and the following whitespace are removed. -/
def stripNumbering (line : String) : String :=
  if line.data.takeWhile Char.isDigit = [] then line
  else
    let rest := line.data.dropWhile Char.isDigit
    let rest := match rest with
      | '.' :: r => r.dropWhile pyIsSpace
      | r => r.dropWhile pyIsSpace
    ofChars rest

/-- Embedding of `parse_questions_from_response` (src/utils/tech_parser.py lines 31-50). -/
def parse_questions_from_response (response : String) : List String :=
  if response = "" then []
  else
    ((pySplitChar '\n' response).map pyStrip).filterMap (fun line =>
      if line ≠ "" && (pyStartsWith line "1." || pyStartsWith line "2." || pyStartsWith line "3.") then
        some (stripNumbering line)
      else none)

/-- Embedding of `get_default_questions` (src/utils/tech_parser.py lines 53-66). -/
def get_default_questions (tech : String) : List String :=
  [ "Can you explain the core principles or concepts of " ++ tech ++ "?",
    "What are the main advantages and limitations of " ++ tech ++ " compared to alternatives?",
    "How would you describe the architecture or structure of a typical " ++ tech ++ " application?" ]

/-! Section: `src/interview/state_manager.py` -/

structure QA where
  question : String
  answer : String
deriving Repr, DecidableEq

/-- The `self.state` dictionary of `InterviewStateManager`.  `asked_questions` is
keyed by `Option String` because `store_answer` uses `current_tech` — which is
`None` before the technical phase — as the dictionary key. -/
structure InterviewState where
  current_step : String
  candidate_info : List (String × String)
  first_name : String
  tech_stack : List String
  current_tech : Option String
  questions_asked_for_current_tech : Nat
  asked_questions : List (Option String × List QA)
  current_question : String
  tech_questions : List (String × List String)
  interview_complete : Bool
deriving Repr, DecidableEq

/-- Embedding of `InterviewStateManager.reset` (src/interview/state_manager.py lines 11-24).
The reset dictionary has no `interview_finished` key, and the class defines no
`mark_interview_finished` / `is_interview_finished` methods (see `process_user_input`
and `can_continue_typing` below). -/
def stateReset : InterviewState :=
  { current_step := "name"
    candidate_info := []
    first_name := ""
    tech_stack := []
    current_tech := none
    questions_asked_for_current_tech := 0
    asked_questions := []
    current_question := ""
    tech_questions := []
    interview_complete := false }

/-- Embedding of `store_candidate_info` (src/interview/state_manager.py lines 42-58). -/
def store_candidate_info (s : InterviewState) (step value : String) : InterviewState :=
  let s := { s with candidate_info := dictSet s.candidate_info step value }
  if step = "name" then
    match pySplitWs value with
    | p :: _ => { s with first_name := p }
    | [] => { s with first_name := pyStrip value }
  else s

def set_tech_stack (s : InterviewState) (technologies : List String) : InterviewState :=
  { s with tech_stack := technologies }

/-- Embedding of `set_current_tech` also resets the per-technology question counter
(src/interview/state_manager.py lines 92-99). -/
def set_current_tech (s : InterviewState) (tech : Option String) : InterviewState :=
  { s with current_tech := tech, questions_asked_for_current_tech := 0 }

def increment_questions_asked (s : InterviewState) : InterviewState :=
  { s with questions_asked_for_current_tech := s.questions_asked_for_current_tech + 1 }

def store_question (s : InterviewState) (question : String) : InterviewState :=
  { s with current_question := question }

def store_tech_questions (s : InterviewState) (tq : List (String × List String)) : InterviewState :=
  { s with tech_questions := tq }

/-- Embedding of `store_answer` (src/interview/state_manager.py lines 163-177): create the entry
for the key if absent, then append the question/answer pair. -/
def store_answer (s : InterviewState) (tech : Option String) (question answer : String) :
    InterviewState :=
  let entry : QA := { question := question, answer := answer }
  let pairs := dictGetD s.asked_questions tech [] ++ [entry]
  { s with asked_questions := dictSet s.asked_questions tech pairs }

def update_current_step (s : InterviewState) (step : String) : InterviewState :=
  { s with current_step := step }

def mark_interview_complete (s : InterviewState) : InterviewState :=
  { s with interview_complete := true }

/-! Section: Fixed texts from `src/templates/prompts.py` and `src/templates/consent_prompts.py`

Only the texts that deterministic code paths return are embedded.  The instruction
templates sent to the generation collaborator are identified by their key in
`PROMPT_TEMPLATES`; their wording never influences control flow because every theorem
quantifies over all collaborator behaviours. -/

def company_name : String := "PGAGI"

def interviewer_name : String := "AVA"

/-- Embedding of `PromptTemplates.INTERVIEW_FLOW` (src/templates/prompts.py lines 49-57). -/
def INTERVIEW_FLOW : List (String × String) :=
  [ ("name", "What is your full name?"),
    ("email", "What is your email address?"),
    ("phone", "What is your phone number where we can reach you?"),
    ("experience", "How many years of professional experience do you have in software development?"),
    ("position", "What position are you applying for?"),
    ("location", "What is your current location?"),
    ("tech_stack", "Please specify your tech stack, including programming languages, frameworks, databases, and tools you are proficient in. Please list them separated by commas (e.g., Python, React, MongoDB).") ]

/-- Embedding of `steps = list(self.prompt_templates.INTERVIEW_FLOW.keys())`. -/
def interviewSteps : List String :=
  INTERVIEW_FLOW.map (fun p => p.1)

/-- Embedding of `PromptTemplates.BASIC_ACKNOWLEDGMENTS` (src/templates/prompts.py lines 60-68). -/
def BASIC_ACKNOWLEDGMENTS : List (String × String) :=
  [ ("name", "Thanks \x7bname\x7d."),
    ("email", "Got it."),
    ("phone", "Thanks for providing your contact information."),
    ("experience", "Thank you for sharing your experience."),
    ("position", "I see you\x27re interested in that role."),
    ("location", "Thank you for letting me know your location."),
    ("tech_stack", "Thanks for sharing your tech stack.") ]

/-- Embedding of `PromptTemplates.ACKNOWLEDGMENT_RESPONSES` (src/templates/prompts.py lines 77-83). -/
def ACKNOWLEDGMENT_RESPONSES : List String :=
  [ "Thank you for sharing that information.",
    "That\x27s helpful to understand your background.",
    "I appreciate your detailed response.",
    "Great, that gives me a good picture of your experience.",
    "Thank you for your thorough explanation." ]

/-- Embedding of `ConsentPrompts.CONSENT_GIVEN` (src/templates/consent_prompts.py lines 28-39),
with `company_name = "PGAGI"` substituted. -/
def CONSENT_GIVEN : String :=
  "Thank you for your consent. Your information will be stored securely in accordance with our privacy policy.\n\nYou may revoke this consent at any time by contacting our data protection team at privacy@pgagi.com.\n\nLet me now explain the interview process:\n- This interview will take approximately 15-20 minutes\n- First, I\x27ll collect some basic information about you\n- Then, I\x27ll ask some theoretical technical questions (no coding required)\n- Feel free to ask clarifying questions at any point\n\nNow, let\x27s begin. Could you please tell me your full name?\n"

/-- Embedding of `ConsentPrompts.CONSENT_DECLINED` (src/templates/consent_prompts.py lines 42-52). -/
def CONSENT_DECLINED : String :=
  "I understand your decision. PGAGI will not store your personal data beyond this interview session.\n\nLet me now explain the interview process:\n- This interview will take approximately 15-20 minutes\n- First, I\x27ll collect some basic information about you\n- Then, I\x27ll ask some theoretical technical questions (no coding required)\n- Feel free to ask clarifying questions at any point\n- Since you declined data storage, your responses will not be saved after our conversation ends\n\nNow, let\x27s begin. Could you please tell me your full name?\n"

/-! Section: The generation collaborator (`src/models/llm_client.py`) -/

/-- External generation collaborator: maps the `PROMPT_TEMPLATES` key and the context
parameters of a call to the raw response text.  An empty result models every failure
mode (exception, quota error, empty answer), exactly as `LLMClient.generate_response`
collapses them to `""`. -/
def Oracle : Type :=
  String → List (String × String) → String

/-- Per-turn external nondeterminism: the generation collaborator plus the value
drawn by `random.choice` (as an index). -/
structure Env where
  oracle : Oracle
  rand : Nat

/-- Embedding of `LLMClient.generate_response` (src/models/llm_client.py lines 42-70): the
response text is stripped; failures yield `""`. -/
def generate_response (env : Env) (template : String) (context : List (String × String)) :
    String :=
  pyStrip (env.oracle template context)

/-! Section: `src/interview/question_generator.py` -/

/-- One iteration budget of the `while len(questions) < 3` loop of
`generate_tech_questions` (src/interview/question_generator.py lines 43-44); the
loop appends `default_questions[len(questions)]` while fewer than three questions
are present, so three iterations always suffice. -/
def padQuestionsFuel (defaults : List String) : Nat → List String → List String
  | 0, questions => questions
  | Nat.succ fuel, questions =>
    if questions.length < 3 then
      padQuestionsFuel defaults fuel (questions ++ [defaults.getD questions.length ""])
    else questions

/-- The `while len(questions) < 3: questions.append(default_questions[len(questions)])`
loop of `generate_tech_questions`. -/
def padQuestions (defaults : List String) (questions : List String) : List String :=
  padQuestionsFuel defaults 3 questions

/-- The per-technology body of `generate_tech_questions`: call the collaborator with
the `tech_question_generation` template, parse, pad with defaults, truncate to 3. -/
def techQuestionsFor (env : Env) (tech : String) : List String :=
  let response := generate_response env "tech_question_generation" [("technology", tech)]
  let questions := parse_questions_from_response response
  let default_questions := get_default_questions tech
  (padQuestions default_questions questions).take 3

/-- Embedding of `QuestionGenerator.generate_tech_questions`
(src/interview/question_generator.py lines 19-49). -/
def generate_tech_questions (env : Env) (tech_stack : List String) :
    List (String × List String) :=
  tech_stack.foldl (fun acc tech => dictSet acc tech (techQuestionsFor env tech)) []

/-! Section: `src/chatbot_controller.py` -/

/-- Exceptions of the Python runtime surfacing from a turn.  `dynamicError` stands
for the KeyError/IndexError raised on type-confused states (a falsy `current_tech`
reaching `get_tech_questions` / `get_asked_questions`, which then return the whole
dictionary); such states are unreachable from a reset session. -/
inductive PyErr where
  | attributeError (attr : String)
  | valueError (msg : String)
  | indexError (msg : String)
  | dynamicError
deriving Repr, DecidableEq

/-- The `ChatbotController` object state.  The database collaborator is modelled by
the event logs `db_create_calls` (arguments of each `DatabaseManager.create_candidate`
call) and `db_store_calls` (arguments of each `store_interview_responses` call);
`chat_history` is the display transcript kept by the LLM client. -/
structure Chatbot where
  ivs : InterviewState
  candidate_id : Option String
  consent_requested : Bool
  consent_given : Bool
  gdpr_intro_shown : Bool
  chat_history : List (String × String)
  db_create_calls : List (List (String × String) × Bool)
  db_store_calls : List (String × List (String × List QA))
deriving Repr, DecidableEq

/-- Embedding of `LLMClient.add_to_history` (src/models/llm_client.py lines 72-80). -/
def add_to_history (c : Chatbot) (user_message bot_message : String) : Chatbot :=
  { c with chat_history := c.chat_history ++ [(user_message, bot_message)] }

/-- Embedding of `ChatbotController.reset_chat` (src/chatbot_controller.py lines 495-504).  The
database event logs model the external store and are not cleared by a chat reset. -/
def reset_chat (c : Chatbot) : Chatbot :=
  { c with
    ivs := stateReset
    chat_history := []
    candidate_id := none
    consent_requested := false
    consent_given := false
    gdpr_intro_shown := false }

/-- Controller state right after `ChatbotController.__init__` (which ends in
`reset_chat`). -/
def initChatbot : Chatbot :=
  reset_chat
    { ivs := stateReset
      candidate_id := none
      consent_requested := false
      consent_given := false
      gdpr_intro_shown := false
      chat_history := []
      db_create_calls := []
      db_store_calls := [] }

/-- State effect of `get_initial_prompt` (src/chatbot_controller.py lines 45-63):
it sets `gdpr_intro_shown` and returns the fixed greeting (whose text no claim
refers to, so only the state effect is modelled). -/
def start_session (c : Chatbot) : Chatbot :=
  { c with gdpr_intro_shown := true }

/-- The controller state at the start of a fresh session, after `__init__` and
`get_initial_prompt`. -/
def sessionStart : Chatbot :=
  start_session initChatbot

/-- Affirmative phrase set of `_process_consent_response`
(src/chatbot_controller.py line 136). -/
def affirmativePhrases : List String :=
  ["yes", "y", "sure", "okay", "ok", "agree", "consent", "i consent"]

/-- Negative phrase set of `_process_consent_response`
(src/chatbot_controller.py line 144). -/
def negativePhrases : List String :=
  ["no", "n", "nope", "disagree", "do not consent", "i do not consent"]

/-- Embedding of `ChatbotController._process_consent_response`
(src/chatbot_controller.py lines 126-150). -/
def process_consent_response (c : Chatbot) (user_input : String) :
    Chatbot × Option String :=
  if pyLower user_input ∈ affirmativePhrases then
    let c := { c with consent_given := true }
    (add_to_history c user_input CONSENT_GIVEN, some CONSENT_GIVEN)
  else if pyLower user_input ∈ negativePhrases then
    (add_to_history c user_input CONSENT_DECLINED, some CONSENT_DECLINED)
  else
    (c, none)

/-- Embedding of `ChatbotController._create_candidate_record` (src/chatbot_controller.py
lines 227-233) together with `DatabaseManager.create_candidate`: the call is logged
and `uuid.uuid4()` is abstracted to a fresh non-empty identifier. -/
def create_candidate_record (c : Chatbot) : Chatbot :=
  let cid := "cid-" ++ toString c.db_create_calls.length
  { c with
    db_create_calls := c.db_create_calls ++ [(c.ivs.candidate_info, c.consent_given)]
    candidate_id := some cid }

/-- Python truthiness of `self.candidate_id` (a string or `None`). -/
def truthyId : Option String → Bool
  | some s => s ≠ ""
  | none => false

/-- Embedding of `ChatbotController._store_interview_responses` (src/chatbot_controller.py
lines 235-248).  `get_asked_questions(tech)` is read as the per-technology list;
the falsy-string branch of the Python source (returning the whole mapping) is not
reachable because `parse_tech_stack` yields non-empty tokens. -/
def store_interview_responses (c : Chatbot) : Chatbot :=
  if !truthyId c.candidate_id || !c.consent_given then c
  else
    let responses := c.ivs.tech_stack.foldl (fun acc tech =>
      let qa_pairs := dictGetD c.ivs.asked_questions (some tech) []
      if qa_pairs ≠ [] then dictSet acc tech qa_pairs else acc) []
    { c with db_store_calls := c.db_store_calls ++ [(c.candidate_id.getD "", responses)] }

/-- Embedding of `ChatbotController._store_user_response` (src/chatbot_controller.py
lines 152-225).  Returns the mutated state and the exception, if one is raised
(`ValueError` from `list.index` when the sought element is absent); mutations made
before the raise persist. -/
def store_user_response (env : Env) (c : Chatbot) (user_input : String) :
    Chatbot × Option PyErr :=
  let current_step := c.ivs.current_step
  if current_step ∈ interviewSteps then
    let c := { c with ivs := store_candidate_info c.ivs current_step user_input }
    let c :=
      if current_step = "tech_stack" then
        { c with ivs := set_tech_stack c.ivs (parse_tech_stack user_input) }
      else c
    match listIndex interviewSteps current_step with
    | none => (c, none)
    | some current_index =>
      if current_index < interviewSteps.length - 1 then
        let next := interviewSteps.getD (current_index + 1) ""
        ({ c with ivs := update_current_step c.ivs next }, none)
      else if current_step = "tech_stack" then
        let tech_stack := c.ivs.tech_stack
        let c :=
          if tech_stack = [] then
            { c with ivs := set_tech_stack c.ivs ["general"] }
          else c
        let tech_stack := c.ivs.tech_stack
        let tq := generate_tech_questions env tech_stack
        let c := { c with ivs := store_tech_questions c.ivs tq }
        let c := { c with ivs := update_current_step c.ivs "technical_questions" }
        let c := { c with ivs := set_current_tech c.ivs (some (tech_stack.headD "")) }
        let c := if c.consent_given then create_candidate_record c else c
        (c, none)
      else (c, none)
  else if current_step = "technical_questions" then
    let current_tech := c.ivs.current_tech
    let current_question := c.ivs.current_question
    let c := { c with ivs := store_answer c.ivs current_tech current_question user_input }
    let c := { c with ivs := increment_questions_asked c.ivs }
    let questions_asked := c.ivs.questions_asked_for_current_tech
    if 3 ≤ questions_asked then
      let tech_stack := c.ivs.tech_stack
      match current_tech with
      | none => (c, some (PyErr.valueError "None is not in list"))
      | some t =>
        match listIndex tech_stack t with
        | none => (c, some (PyErr.valueError "element is not in list"))
        | some current_index =>
          if current_index < tech_stack.length - 1 then
            let next_tech := tech_stack.getD (current_index + 1) ""
            ({ c with ivs := set_current_tech c.ivs (some next_tech) }, none)
          else
            let c := { c with ivs := update_current_step c.ivs "complete" }
            let c := { c with ivs := mark_interview_complete c.ivs }
            let c :=
              if c.consent_given && truthyId c.candidate_id then
                store_interview_responses c
              else c
            (c, none)
    else (c, none)
  else (c, none)

/-- Embedding of `ChatbotController._get_technical_question_response`
(src/chatbot_controller.py lines 333-455).  Only `current_question` is ever
mutated.  When `current_tech` is falsy (None or the empty string), the source
`get_tech_questions` / `get_asked_questions` return the whole dictionary; the
branches where the dictionary then flows into list indexing all raise, modelled by
`PyErr.dynamicError` (unreachable from a reset session). -/
def get_technical_question_response (env : Env) (c : Chatbot) (_user_input : String) :
    Chatbot × Except PyErr String :=
  let current_tech := c.ivs.current_tech
  let questions_asked := c.ivs.questions_asked_for_current_tech
  let techName := match current_tech with
    | some t => t
    | none => "None"
  let tqsE : Except PyErr (List String) :=
    match current_tech with
    | some t =>
      if t ≠ "" then Except.ok (dictGetD c.ivs.tech_questions t [])
      else if c.ivs.tech_questions.length < 3 then Except.ok []
      else Except.error PyErr.dynamicError
    | none =>
      if c.ivs.tech_questions.length < 3 then Except.ok []
      else Except.error PyErr.dynamicError
  match tqsE with
  | Except.error e => (c, Except.error e)
  | Except.ok tqs0 =>
    let tech_questions :=
      if tqs0 = [] || tqs0.length < 3 then get_default_questions techName else tqs0
    let first_question := tech_questions.headD ""
    if questions_asked = 0 then
      match c.ivs.tech_stack with
      | [] => (c, Except.error (PyErr.indexError "list index out of range"))
      | s0 :: _ =>
        let is_first_tech := match current_tech with
          | some t => t == s0
          | none => false
        let tech_stack_raw := dictGetD c.ivs.candidate_info "tech_stack" ""
        if is_first_tech then
          let response := generate_response env "tech_transition"
            [ ("interviewer_name", interviewer_name), ("company_name", company_name),
              ("tech_stack", tech_stack_raw), ("current_tech", techName),
              ("first_question", first_question) ]
          if response ≠ "" then
            ({ c with ivs := store_question c.ivs first_question }, Except.ok response)
          else
            let transition :=
              "Thanks for sharing your tech stack. Now I\x27d like to ask you some theoretical questions about "
                ++ techName ++ "."
            ({ c with ivs := store_question c.ivs first_question },
             Except.ok (transition ++ "\n\n" ++ first_question))
        else
          match current_tech with
          | none => (c, Except.error (PyErr.valueError "None is not in list"))
          | some t =>
            match listIndex c.ivs.tech_stack t with
            | none => (c, Except.error (PyErr.valueError "element is not in list"))
            | some idx =>
              let previous_tech := c.ivs.tech_stack.getD (idx - 1) ""
              let response := generate_response env "tech_transition_next"
                [ ("interviewer_name", interviewer_name), ("company_name", company_name),
                  ("previous_tech", previous_tech), ("next_tech", techName),
                  ("first_question", first_question) ]
              if response ≠ "" then
                ({ c with ivs := store_question c.ivs first_question }, Except.ok response)
              else
                let transition :=
                  "Great. Now I\x27d like to ask you some theoretical questions about "
                    ++ techName ++ "."
                ({ c with ivs := store_question c.ivs first_question },
                 Except.ok (transition ++ "\n\n" ++ first_question))
    else
      let next_question_index :=
        if tech_questions.length ≤ questions_asked then tech_questions.length - 1
        else questions_asked
      let next_question := tech_questions.getD next_question_index ""
      let c := { c with ivs := store_question c.ivs next_question }
      let askedE : Except PyErr (List QA) :=
        match current_tech with
        | some t =>
          if t ≠ "" then Except.ok (dictGetD c.ivs.asked_questions (some t) [])
          else if c.ivs.asked_questions = [] then Except.ok []
          else Except.error PyErr.dynamicError
        | none =>
          if c.ivs.asked_questions = [] then Except.ok []
          else Except.error PyErr.dynamicError
      match askedE with
      | Except.error e => (c, Except.error e)
      | Except.ok asked_questions =>
        let fallback :=
          let acknowledgment :=
            ACKNOWLEDGMENT_RESPONSES.getD (env.rand % ACKNOWLEDGMENT_RESPONSES.length) ""
          (c, Except.ok (acknowledgment ++ " " ++ next_question))
        match asked_questions.getLast? with
        | some prev =>
          let response := generate_response env "next_tech_question"
            [ ("interviewer_name", interviewer_name), ("company_name", company_name),
              ("technology", techName), ("previous_question", prev.question),
              ("previous_answer", prev.answer), ("next_question", next_question) ]
          if response ≠ "" then (c, Except.ok response) else fallback
        | none => fallback

/-- Embedding of `ChatbotController._get_next_response` (src/chatbot_controller.py lines 250-331).
In the `complete` branch, lines 301-323 compose a conclusion message (the fixed GDPR
notice when consent was given, otherwise a generated-or-fixed conclusion), but line
326 then calls `state_manager.mark_interview_finished()`; `InterviewStateManager`
defines no such attribute, so the composed message is discarded and the turn raises
`AttributeError` with no state change. -/
def get_next_response (env : Env) (c : Chatbot) (user_input : String) :
    Chatbot × Except PyErr String :=
  let current_step := c.ivs.current_step
  if current_step ∈ interviewSteps then
    match listIndex interviewSteps current_step with
    | none => (c, Except.ok "I\x27m not sure what to ask next. Let\x27s restart the interview.")
    | some current_index =>
      let next_question := dictGetD INTERVIEW_FLOW current_step ""
      if 0 < current_index then
        let prev_step := interviewSteps.getD (current_index - 1) ""
        let response := generate_response env "info_gathering"
          [ ("interviewer_name", interviewer_name), ("company_name", company_name),
            ("prev_step", prev_step), ("user_input", user_input),
            ("next_question", next_question) ]
        if response ≠ "" then (c, Except.ok response)
        else
          let acknowledgment := dictGetD BASIC_ACKNOWLEDGMENTS prev_step "Thank you."
          let acknowledgment :=
            if pyContains acknowledgment "\x7bname\x7d" then
              pyReplace acknowledgment "\x7bname\x7d" c.ivs.first_name
            else acknowledgment
          (c, Except.ok (acknowledgment ++ " " ++ next_question))
      else (c, Except.ok next_question)
  else if current_step = "technical_questions" then
    get_technical_question_response env c user_input
  else if current_step = "complete" then
    (c, Except.error (PyErr.attributeError "mark_interview_finished"))
  else
    (c, Except.ok "I\x27m not sure what to ask next. Let\x27s restart the interview.")

/-- Embedding of `ChatbotController.process_user_input` (src/chatbot_controller.py lines 65-124).
Line 76 (`exit` command) calls `state_manager.mark_interview_finished()`, an
attribute `InterviewStateManager` does not define, so the exit turn raises
`AttributeError` before any mutation. -/
def process_user_input (env : Env) (c : Chatbot) (user_input : String) :
    Chatbot × Except PyErr String :=
  if pyLower (pyStrip user_input) = "exit" then
    (c, Except.error (PyErr.attributeError "mark_interview_finished"))
  else if pyStrip user_input = "" then
    (c, Except.ok "I didn\x27t receive your response. Could you please provide an answer to the question?")
  else if c.gdpr_intro_shown && !c.consent_requested then
    let c := { c with consent_requested := true }
    match process_consent_response c user_input with
    | (c, some consent_response) => (c, Except.ok consent_response)
    | (c, none) =>
      (c, Except.ok "Please respond with \x27yes\x27 or \x27no\x27 to indicate whether you consent to storing your interview data.")
  else
    let current_step := c.ivs.current_step
    let validation_result := validate_input current_step user_input
    if validation_result.valid = false then
      let message := generate_response env "validation_error"
        [ ("interviewer_name", interviewer_name), ("company_name", company_name),
          ("field_type", validation_result.field_type),
          ("error_message", validation_result.error) ]
      let message := if message = "" then validation_result.error else message
      (c, Except.ok message)
    else
      match store_user_response env c user_input with
      | (c, some e) => (c, Except.error e)
      | (c, none) =>
        match get_next_response env c user_input with
        | (c, Except.error e) => (c, Except.error e)
        | (c, Except.ok next_response) =>
          (add_to_history c user_input next_response, Except.ok next_response)

/-- Embedding of `ChatbotController.can_continue_typing` (src/chatbot_controller.py lines
506-512) calls `state_manager.is_interview_finished()`, an attribute
`InterviewStateManager` does not define, so every call raises `AttributeError`. -/
def can_continue_typing (_c : Chatbot) : Except PyErr Bool :=
  Except.error (PyErr.attributeError "is_interview_finished")

/-! Section: Sessions as turn sequences -/

/-- One turn of the external request/response cycle: the user input plus the
external nondeterminism consumed during that turn. -/
structure Turn where
  env : Env
  input : String

/-- State reached after a turn (the response is discarded). -/
def stepTurn (c : Chatbot) (t : Turn) : Chatbot :=
  (process_user_input t.env c t.input).1

/-- Controller state after processing a list of turns from a fresh session. -/
def runSession (turns : List Turn) : Chatbot :=
  turns.foldl stepTurn sessionStart

/-- The responses (or exceptions) of each turn along a session. -/
def runOutputs (c : Chatbot) : List Turn → List (Except PyErr String)
  | [] => []
  | t :: rest =>
    (process_user_input t.env c t.input).2 :: runOutputs (stepTurn c t) rest

end AssessAI

namespace AssessAI

instance {e a : Type} [DecidableEq e] [DecidableEq a] : DecidableEq (Except e a) := fun x y =>
  match x, y with
  | Except.ok u, Except.ok v =>
    if h : u = v then isTrue (by rw [h]) else isFalse (by intro hc; injection hc; contradiction)
  | Except.error u, Except.error v =>
    if h : u = v then isTrue (by rw [h]) else isFalse (by intro hc; injection hc; contradiction)
  | Except.ok _, Except.error _ => isFalse (by intro hc; injection hc)
  | Except.error _, Except.ok _ => isFalse (by intro hc; injection hc)

/-- Number of question/answer pairs recorded for a technology. -/
def askedLen (c : Chatbot) (tech : String) : Nat :=
  (dictGetD c.ivs.asked_questions (some tech) []).length

theorem dictGet_dictSet_self {K V : Type} [DecidableEq K] (d : List (K × V)) (k : K) (v : V) :
    dictGet (dictSet d k v) k = some v := by
  induction d with
  | nil => simp [dictGet, dictSet]
  | cons p rest ih =>
    by_cases h : p.1 = k
    · simp [dictSet, dictGet, h]
    · simp [dictSet, dictGet, h, ih]

theorem dictGet_dictSet_ne {K V : Type} [DecidableEq K] (d : List (K × V)) (k k' : K) (v : V)
    (h : k' ≠ k) : dictGet (dictSet d k v) k' = dictGet d k' := by
  have hkk : ¬ (k = k') := fun hc => h hc.symm
  induction d with
  | nil => simp [dictSet, dictGet, hkk]
  | cons p rest ih =>
    by_cases hp : p.1 = k
    · simp [dictSet, dictGet, hp, hkk]
    · simp [dictSet, dictGet, hp, ih]

theorem listIndex_of_append_cons {α : Type} [DecidableEq α] (pre post : List α) (t : α)
    (h : t ∉ pre) : listIndex (pre ++ t :: post) t = some pre.length := by
  induction pre with
  | nil => simp [listIndex]
  | cons a rest ih =>
    have ha : a ≠ t := by intro hc; exact h (by simp [hc])
    have hr : t ∉ rest := fun hc => h (by simp [hc])
    simp [listIndex, ha, ih hr]

theorem listIndex_isSome_of_mem {α : Type} [DecidableEq α] (l : List α) (a : α) (h : a ∈ l) :
    ∃ i, listIndex l a = some i := by
  induction l with
  | nil => simp at h
  | cons b rest ih =>
    by_cases hb : b = a
    · exact ⟨0, by simp [listIndex, hb]⟩
    · have hm : a ∈ rest := by
        rcases List.mem_cons.mp h with h1 | h1
        · exact absurd h1.symm hb
        · exact h1
      obtain ⟨i, hi⟩ := ih hm
      exact ⟨i + 1, by simp [listIndex, hb, hi]⟩

theorem listIndex_lt_length {α : Type} [DecidableEq α] (l : List α) (a : α) (i : Nat)
    (h : listIndex l a = some i) : i < l.length := by
  induction l generalizing i with
  | nil => simp [listIndex] at h
  | cons b rest ih =>
    by_cases hb : b = a
    · simp [listIndex, hb] at h
      simp only [List.length_cons]
      omega
    · simp [listIndex, hb] at h
      obtain ⟨j, hj, hji⟩ := h
      have := ih j hj
      simp only [List.length_cons]
      omega

theorem getD_mem {α : Type} (l : List α) (n : Nat) (d : α) (h : n < l.length) :
    l.getD n d ∈ l := by
  rw [List.getD_eq_getElem l d h]
  exact List.getElem_mem h

theorem getD_append_cons_succ {α : Type} (pre post : List α) (t d : α) :
    (pre ++ t :: post).getD (pre.length + 1) d = post.getD 0 d := by
  induction pre with
  | nil => simp [List.getD]
  | cons a rest ih => simpa [List.getD] using ih

theorem nodup_decomp {α : Type} (pre post : List α) (t : α)
    (h : (pre ++ t :: post).Nodup) : t ∉ pre ∧ t ∉ post ∧ ∀ u ∈ post, u ∉ pre := by
  rw [List.nodup_append] at h
  obtain ⟨h1, h2, h3⟩ := h
  rw [List.nodup_cons] at h2
  exact ⟨fun hc => h3 hc (by simp), h2.1, fun u hu hc => h3 hc (by simp [hu])⟩

theorem parse_tech_stack_ne_nil (s : String) (n : Nat) : parse_tech_stack s n ≠ [] := by
  simp only [parse_tech_stack]
  split
  · simp
  · assumption

theorem mem_parse_tech_stack_ne_empty (s : String) (n : Nat) (t : String)
    (h : t ∈ parse_tech_stack s n) : t ≠ "" := by
  simp only [parse_tech_stack] at h
  split at h
  · rcases List.mem_singleton.mp h with rfl
    decide
  · have h2 := List.mem_of_mem_take h
    have h3 := List.mem_filter.mp h2
    simpa using h3.2

theorem gtq_shape (env : Env) (c : Chatbot) (input : String) :
    ∃ q, (get_technical_question_response env c input).1 =
      { c with ivs := { c.ivs with current_question := q } } := by
  unfold get_technical_question_response
  simp only [store_question]
  repeat' split
  all_goals exact ⟨_, rfl⟩

theorem gnr_shape (env : Env) (c : Chatbot) (input : String) :
    ∃ q, (get_next_response env c input).1 =
      { c with ivs := { c.ivs with current_question := q } } := by
  simp only [get_next_response]
  split
  · repeat' split
    all_goals exact ⟨_, rfl⟩
  · split
    · exact gtq_shape env c input
    · split
      · exact ⟨_, rfl⟩
      · exact ⟨_, rfl⟩

/-- The nine values `current_step` ranges over. -/
def allSteps : List String :=
  interviewSteps ++ ["technical_questions", "complete"]

/-- Consecutive pairs of the step order: the fixed field order, then
`technical_questions`, then `complete`. -/
def succPair : List (String × String) :=
  [ ("name", "email"), ("email", "phone"), ("phone", "experience"),
    ("experience", "position"), ("position", "location"), ("location", "tech_stack"),
    ("tech_stack", "technical_questions"), ("technical_questions", "complete") ]

/-- One turn either keeps `current_step` or advances it to its successor. -/
def stepRelation (a b : String) : Prop :=
  a = b ∨ (a, b) ∈ succPair

/-- Reachability invariant of a session.  All clauses speak only about fields other
than `current_question` and `chat_history`. -/
structure Inv (c : Chatbot) : Prop where
  step_mem : c.ivs.current_step ∈ allSteps
  gdpr : c.gdpr_intro_shown = true
  consent_req : c.ivs.current_step ≠ "name" → c.consent_requested = true
  field_phase : c.ivs.current_step ∈ interviewSteps →
      c.ivs.asked_questions = [] ∧ c.db_create_calls = [] ∧ c.db_store_calls = []
  tq_phase : c.ivs.current_step = "technical_questions" →
      (∃ t, c.ivs.current_tech = some t ∧ t ∈ c.ivs.tech_stack) ∧
      c.ivs.questions_asked_for_current_tech ≤ 2 ∧ c.db_store_calls = []
  tq_shape : c.ivs.current_step = "technical_questions" → c.ivs.tech_stack.Nodup →
      ∃ pre t post, c.ivs.tech_stack = pre ++ t :: post ∧ c.ivs.current_tech = some t ∧
        (∀ u ∈ pre, askedLen c u = 3) ∧
        askedLen c t = c.ivs.questions_asked_for_current_tech ∧
        (∀ u : String, u ∉ pre → u ≠ t → askedLen c u = 0)
  comp_shape : c.ivs.current_step = "complete" → c.ivs.tech_stack.Nodup →
      (∀ u ∈ c.ivs.tech_stack, askedLen c u = 3) ∧
      (∀ u : String, u ∉ c.ivs.tech_stack → askedLen c u = 0)
  create_le : c.db_create_calls.length ≤ 1
  store_le : c.db_store_calls.length ≤ 1
  create_consent : c.consent_given = false → c.db_create_calls = []
  store_consent : c.consent_given = false → c.db_store_calls = []

theorem inv_update_cq (c : Chatbot) (q : String) (h : Inv c) :
    Inv { c with ivs := { c.ivs with current_question := q } } := by
  obtain ⟨h1, h2, h3, h4, h5, h6, h7, h8, h9, h10, h11⟩ := h
  exact ⟨h1, h2, h3, h4, h5, h6, h7, h8, h9, h10, h11⟩

theorem inv_add_to_history (c : Chatbot) (um bm : String) (h : Inv c) :
    Inv (add_to_history c um bm) := by
  obtain ⟨h1, h2, h3, h4, h5, h6, h7, h8, h9, h10, h11⟩ := h
  exact ⟨h1, h2, h3, h4, h5, h6, h7, h8, h9, h10, h11⟩

theorem inv_sessionStart : Inv sessionStart := by
  refine ⟨?_, ?_, ?_, ?_, ?_, ?_, ?_, ?_, ?_, ?_, ?_⟩
  · decide
  · decide
  · decide
  · decide
  · intro h; exact absurd h (by decide)
  · intro h; exact absurd h (by decide)
  · intro h; exact absurd h (by decide)
  · decide
  · decide
  · decide
  · decide

set_option maxHeartbeats 1000000

theorem store_candidate_info_shape (s : InterviewState) (step value : String) :
    ∃ fn, store_candidate_info s step value =
      { s with candidate_info := dictSet s.candidate_info step value, first_name := fn } := by
  unfold store_candidate_info
  split
  · split
    · exact ⟨_, rfl⟩
    · exact ⟨_, rfl⟩
  · exact ⟨_, rfl⟩

@[simp] theorem sci_current_step (s : InterviewState) (step value : String) :
    (store_candidate_info s step value).current_step = s.current_step := by
  obtain ⟨fn, hs⟩ := store_candidate_info_shape s step value
  rw [hs]

@[simp] theorem sci_tech_stack (s : InterviewState) (step value : String) :
    (store_candidate_info s step value).tech_stack = s.tech_stack := by
  obtain ⟨fn, hs⟩ := store_candidate_info_shape s step value
  rw [hs]

@[simp] theorem sci_current_tech (s : InterviewState) (step value : String) :
    (store_candidate_info s step value).current_tech = s.current_tech := by
  obtain ⟨fn, hs⟩ := store_candidate_info_shape s step value
  rw [hs]

@[simp] theorem sci_questions_asked (s : InterviewState) (step value : String) :
    (store_candidate_info s step value).questions_asked_for_current_tech =
      s.questions_asked_for_current_tech := by
  obtain ⟨fn, hs⟩ := store_candidate_info_shape s step value
  rw [hs]

@[simp] theorem sci_asked_questions (s : InterviewState) (step value : String) :
    (store_candidate_info s step value).asked_questions = s.asked_questions := by
  obtain ⟨fn, hs⟩ := store_candidate_info_shape s step value
  rw [hs]

@[simp] theorem sci_tech_questions (s : InterviewState) (step value : String) :
    (store_candidate_info s step value).tech_questions = s.tech_questions := by
  obtain ⟨fn, hs⟩ := store_candidate_info_shape s step value
  rw [hs]

@[simp] theorem sci_interview_complete (s : InterviewState) (step value : String) :
    (store_candidate_info s step value).interview_complete = s.interview_complete := by
  obtain ⟨fn, hs⟩ := store_candidate_info_shape s step value
  rw [hs]

@[simp] theorem sir_ivs (c : Chatbot) : (store_interview_responses c).ivs = c.ivs := by
  unfold store_interview_responses
  split <;> rfl

@[simp] theorem sir_candidate_id (c : Chatbot) :
    (store_interview_responses c).candidate_id = c.candidate_id := by
  unfold store_interview_responses
  split <;> rfl

@[simp] theorem sir_consent_given (c : Chatbot) :
    (store_interview_responses c).consent_given = c.consent_given := by
  unfold store_interview_responses
  split <;> rfl

@[simp] theorem sir_consent_requested (c : Chatbot) :
    (store_interview_responses c).consent_requested = c.consent_requested := by
  unfold store_interview_responses
  split <;> rfl

@[simp] theorem sir_gdpr (c : Chatbot) :
    (store_interview_responses c).gdpr_intro_shown = c.gdpr_intro_shown := by
  unfold store_interview_responses
  split <;> rfl

@[simp] theorem sir_db_create (c : Chatbot) :
    (store_interview_responses c).db_create_calls = c.db_create_calls := by
  unfold store_interview_responses
  split <;> rfl

theorem sir_db_store (c : Chatbot) :
    (store_interview_responses c).db_store_calls = c.db_store_calls ∨
      ∃ x, (store_interview_responses c).db_store_calls = c.db_store_calls ++ [x] := by
  unfold store_interview_responses
  split
  · exact Or.inl rfl
  · exact Or.inr ⟨_, rfl⟩

theorem headD_mem {α : Type} (l : List α) (d : α) (h : l ≠ []) : l.headD d ∈ l := by
  cases l with
  | nil => exact absurd rfl h
  | cons a rest => simp

/-- Common argument for the six simple info-gathering steps: the answer is stored
and `current_step` advances to the next field. -/
theorem susr_field_case (env : Env) (c : Chatbot) (input : String) (hInv : Inv c)
    (hreq : c.consent_requested = true) (step next : String)
    (h : c.ivs.current_step = step)
    (hsm : step ∈ interviewSteps)
    (heq : store_user_response env c input =
      ({ c with ivs := update_current_step (store_candidate_info c.ivs step input) next }, none))
    (hnext_all : next ∈ allSteps)
    (hnext_tq : next ≠ "technical_questions")
    (hnext_comp : next ≠ "complete")
    (hpair : (step, next) ∈ succPair) :
    Inv (store_user_response env c input).1 ∧
    stepRelation c.ivs.current_step ((store_user_response env c input).1).ivs.current_step ∧
    (∀ tech : String, c.ivs.current_tech ≠ some tech →
      askedLen (store_user_response env c input).1 tech = askedLen c tech) ∧
    (store_user_response env c input).1.consent_given = c.consent_given := by
  obtain ⟨hasked, hcre, hsto⟩ := hInv.field_phase (h ▸ hsm)
  rw [heq]
  refine ⟨⟨?_, ?_, ?_, ?_, ?_, ?_, ?_, ?_, ?_, ?_, ?_⟩, ?_, ?_, ?_⟩
  · simpa [update_current_step] using hnext_all
  · exact hInv.gdpr
  · exact fun _ => hreq
  · exact fun _ => ⟨by simpa [update_current_step] using hasked, hcre, hsto⟩
  · intro hx
    simp only [update_current_step] at hx
    exact absurd hx hnext_tq
  · intro hx
    simp only [update_current_step] at hx
    exact absurd hx hnext_tq
  · intro hx
    simp only [update_current_step] at hx
    exact absurd hx hnext_comp
  · exact hInv.create_le
  · exact hInv.store_le
  · exact hInv.create_consent
  · exact hInv.store_consent
  · right
    rw [h]
    simpa [update_current_step] using hpair
  · intro tech _
    simp [askedLen, update_current_step]
  · rfl

/-- Preservation through the `tech_stack` turn: the technical phase is set up and,
when consent was given, the candidate record is created. -/
theorem susr_techstack_case (env : Env) (c : Chatbot) (input : String) (hInv : Inv c)
    (hreq : c.consent_requested = true)
    (h : c.ivs.current_step = "tech_stack")
    (heq : store_user_response env c input =
      (let ts := parse_tech_stack input
       let s1 := set_current_tech (update_current_step (store_tech_questions
         (set_tech_stack (store_candidate_info c.ivs "tech_stack" input) ts)
         (generate_tech_questions env ts)) "technical_questions") (some (ts.headD ""))
       let cbase := { c with ivs := s1 }
       (if c.consent_given then create_candidate_record cbase else cbase, none))) :
    Inv (store_user_response env c input).1 ∧
    stepRelation c.ivs.current_step ((store_user_response env c input).1).ivs.current_step ∧
    (∀ tech : String, c.ivs.current_tech ≠ some tech →
      askedLen (store_user_response env c input).1 tech = askedLen c tech) ∧
    (store_user_response env c input).1.consent_given = c.consent_given := by
  obtain ⟨hasked, hcre, hsto⟩ := hInv.field_phase (by rw [h]; decide)
  rw [heq]
  have hts := parse_tech_stack_ne_nil input 4
  by_cases hcg : c.consent_given = true
  · simp only [hcg, if_true, create_candidate_record, set_current_tech, update_current_step,
      store_tech_questions, set_tech_stack]
    refine ⟨⟨?_, ?_, ?_, ?_, ?_, ?_, ?_, ?_, ?_, ?_, ?_⟩, ?_, ?_, ?_⟩ <;> try dsimp only
    · decide
    · exact hInv.gdpr
    · exact fun _ => hreq
    · intro hx; exact absurd hx (by decide)
    · intro _
      exact ⟨⟨_, rfl, headD_mem _ _ hts⟩, by omega, hsto⟩
    · intro _ hnd
      cases hp : parse_tech_stack input with
      | nil => exact absurd hp hts
      | cons t0 rest =>
        refine ⟨[], t0, rest, by simp [hp], by simp [hp], ?_, ?_, ?_⟩
        · intro u hu; simp at hu
        · simp [askedLen, hasked, dictGetD, dictGet]
        · intro u _ _; simp [askedLen, hasked, dictGetD, dictGet]
    · intro hx; exact absurd hx (by decide)
    · simp [hcre]
    · exact hInv.store_le
    · intro hx; exact absurd hx (by decide)
    · intro _; exact hsto
    · exact Or.inr (by rw [h]; decide)
    · intro tech _; simp [askedLen, hasked, dictGetD, dictGet]
  · replace hcg : c.consent_given = false := by
      revert hcg; cases c.consent_given <;> simp
    simp only [hcg, Bool.false_eq_true, if_false, set_current_tech, update_current_step,
      store_tech_questions, set_tech_stack]
    refine ⟨⟨?_, ?_, ?_, ?_, ?_, ?_, ?_, ?_, ?_, ?_, ?_⟩, ?_, ?_, ?_⟩ <;> try dsimp only
    · decide
    · exact hInv.gdpr
    · exact fun _ => hreq
    · intro hx; exact absurd hx (by decide)
    · intro _
      exact ⟨⟨_, rfl, headD_mem _ _ hts⟩, by omega, hsto⟩
    · intro _ hnd
      cases hp : parse_tech_stack input with
      | nil => exact absurd hp hts
      | cons t0 rest =>
        refine ⟨[], t0, rest, by simp [hp], by simp [hp], ?_, ?_, ?_⟩
        · intro u hu; simp at hu
        · simp [askedLen, hasked, dictGetD, dictGet]
        · intro u _ _; simp [askedLen, hasked, dictGetD, dictGet]
    · intro hx; exact absurd hx (by decide)
    · exact hInv.create_le
    · exact hInv.store_le
    · intro _; exact hcre
    · intro _; exact hsto
    · exact Or.inr (by rw [h]; decide)
    · intro tech _; simp [askedLen, hasked, dictGetD, dictGet]

theorem store_answer_def (s : InterviewState) (tech : Option String) (q a : String) :
    store_answer s tech q a =
      { s with asked_questions := dictSet s.asked_questions tech (dictGetD s.asked_questions tech [] ++ [{ question := q, answer := a }]) } :=
  rfl

theorem dictLen_set_self (d : List (Option String × List QA)) (t : Option String) (e : QA) :
    (dictGetD (dictSet d t (dictGetD d t [] ++ [e])) t []).length =
      (dictGetD d t []).length + 1 := by
  simp [dictGetD, dictGet_dictSet_self]

theorem dictGetD_set_ne (d : List (Option String × List QA)) (t u : String) (v : List QA)
    (hne : u ≠ t) : dictGetD (dictSet d (some t) v) (some u) [] = dictGetD d (some u) [] := by
  have hne2 : (some u : Option String) ≠ some t := by simpa using hne
  simp [dictGetD, dictGet_dictSet_ne _ _ _ _ hne2]

/-- Preservation through a technical-questions answer that does not yet complete the
current technology. -/
theorem susr_tq_stay_case (env : Env) (c : Chatbot) (input : String) (hInv : Inv c)
    (hreq : c.consent_requested = true)
    (h : c.ivs.current_step = "technical_questions")
    (hnot : ¬ 3 ≤ c.ivs.questions_asked_for_current_tech + 1) :
    Inv (store_user_response env c input).1 ∧
    stepRelation c.ivs.current_step ((store_user_response env c input).1).ivs.current_step ∧
    (∀ tech : String, c.ivs.current_tech ≠ some tech →
      askedLen (store_user_response env c input).1 tech = askedLen c tech) ∧
    (store_user_response env c input).1.consent_given = c.consent_given := by
  obtain ⟨⟨t, hct, htm⟩, hcnt, hsto⟩ := hInv.tq_phase h
  have heq : store_user_response env c input =
      ({ c with ivs := increment_questions_asked (store_answer c.ivs (some t) c.ivs.current_question input) }, none) := by
    simp [store_user_response, h, hct, hnot, store_answer_def, increment_questions_asked,
      interviewSteps, INTERVIEW_FLOW, listIndex]
  rw [heq]
  refine ⟨⟨?_, ?_, ?_, ?_, ?_, ?_, ?_, ?_, ?_, ?_, ?_⟩, ?_, ?_, ?_⟩ <;>
    simp only [store_answer_def, increment_questions_asked]
  · simpa using hInv.step_mem
  · exact hInv.gdpr
  · exact fun _ => hreq
  · intro hx
    rw [h] at hx
    exact absurd hx (by decide)
  · intro _
    exact ⟨⟨t, hct, htm⟩, by omega, hsto⟩
  · intro _ hnd
    obtain ⟨pre, t', post, hdec, hct2, h3, hlenEq, h0⟩ := hInv.tq_shape h (by simpa using hnd)
    have htt : t' = t := Option.some.inj (hct2.symm.trans hct)
    rw [htt] at hdec hlenEq h0
    obtain ⟨htp, -, -⟩ := nodup_decomp pre post t (by rw [← hdec]; simpa using hnd)
    refine ⟨pre, t, post, by simpa using hdec, by simpa using hct, ?_, ?_, ?_⟩
    · intro u hu
      have hu_ne : u ≠ t := fun hc => htp (hc ▸ hu)
      have h3u := h3 u hu
      simp only [askedLen] at h3u ⊢
      rw [dictGetD_set_ne _ _ _ _ hu_ne]
      exact h3u
    · simp only [askedLen] at hlenEq ⊢
      rw [dictLen_set_self, hlenEq]
    · intro u hup hut
      have h0u := h0 u hup hut
      simp only [askedLen] at h0u ⊢
      rw [dictGetD_set_ne _ _ _ _ hut]
      exact h0u
  · intro hx
    rw [h] at hx
    exact absurd hx (by decide)
  · exact hInv.create_le
  · exact hInv.store_le
  · exact hInv.create_consent
  · exact hInv.store_consent
  · exact Or.inl rfl
  · intro u hu
    have hut : u ≠ t := by
      rw [hct] at hu
      simpa [eq_comm] using hu
    simp only [askedLen]
    rw [dictGetD_set_ne _ _ _ _ hut]

/-- Preservation through the third answer for a technology when further technologies
remain: the controller advances `current_tech` and resets the counter. -/
theorem susr_tq_move_case (env : Env) (c : Chatbot) (input : String) (hInv : Inv c)
    (hreq : c.consent_requested = true)
    (h : c.ivs.current_step = "technical_questions")
    (hfull : 3 ≤ c.ivs.questions_asked_for_current_tech + 1)
    (t : String) (hct : c.ivs.current_tech = some t) (i : Nat)
    (hidx : listIndex c.ivs.tech_stack t = some i)
    (hlt : i < c.ivs.tech_stack.length - 1) :
    Inv (store_user_response env c input).1 ∧
    stepRelation c.ivs.current_step ((store_user_response env c input).1).ivs.current_step ∧
    (∀ tech : String, c.ivs.current_tech ≠ some tech →
      askedLen (store_user_response env c input).1 tech = askedLen c tech) ∧
    (store_user_response env c input).1.consent_given = c.consent_given := by
  obtain ⟨-, hcnt, hsto⟩ := hInv.tq_phase h
  have heq : store_user_response env c input =
      (let s1 := set_current_tech (increment_questions_asked (store_answer c.ivs (some t) c.ivs.current_question input)) (some (c.ivs.tech_stack.getD (i + 1) ""))
       ({ c with ivs := s1 }, none)) := by
    simp [store_user_response, h, hct, hfull, hidx, hlt, store_answer_def,
      increment_questions_asked, set_current_tech, interviewSteps, INTERVIEW_FLOW, listIndex]
  rw [heq]
  refine ⟨⟨?_, ?_, ?_, ?_, ?_, ?_, ?_, ?_, ?_, ?_, ?_⟩, ?_, ?_, ?_⟩ <;>
    simp only [store_answer_def, increment_questions_asked, set_current_tech]
  · simpa using hInv.step_mem
  · exact hInv.gdpr
  · exact fun _ => hreq
  · intro hx
    rw [h] at hx
    exact absurd hx (by decide)
  · intro _
    have hi := listIndex_lt_length _ _ _ hidx
    refine ⟨⟨_, rfl, getD_mem _ _ _ (by omega)⟩, by omega, hsto⟩
  · intro _ hnd
    obtain ⟨pre, t', post, hdec, hct2, h3, hlenEq, h0⟩ := hInv.tq_shape h (by simpa using hnd)
    have htt : t' = t := Option.some.inj (hct2.symm.trans hct)
    rw [htt] at hdec hlenEq h0
    obtain ⟨htp, htpost, hdisj⟩ := nodup_decomp pre post t (by rw [← hdec]; simpa using hnd)
    have hi : i = pre.length := by
      have := listIndex_of_append_cons pre post t htp
      rw [hdec] at hidx
      rw [this] at hidx
      exact (Option.some.inj hidx).symm
    have hpostlen : post ≠ [] := by
      intro hpe
      rw [hdec] at hlt
      rw [hpe] at hlt
      simp at hlt
      omega
    cases hpost : post with
    | nil => exact absurd hpost hpostlen
    | cons p0 ptl =>
      have hnext : c.ivs.tech_stack.getD (i + 1) "" = p0 := by
        rw [hdec, hi, hpost]
        exact getD_append_cons_succ pre (p0 :: ptl) t ""
      have hp0post : p0 ∈ post := by rw [hpost]; simp
      have hp0pre : p0 ∉ pre := hdisj p0 hp0post
      have hp0t : p0 ≠ t := by
        intro hc
        rw [hc] at hp0post
        exact htpost hp0post
      refine ⟨pre ++ [t], p0, ptl, ?_, by rw [hnext], ?_, ?_, ?_⟩
      · rw [hdec, hpost]
        simp
      · intro u hu
        rcases List.mem_append.mp hu with hu1 | hu1
        · have hu_ne : u ≠ t := fun hc => htp (hc ▸ hu1)
          have h3u := h3 u hu1
          simp only [askedLen] at h3u ⊢
          rw [dictGetD_set_ne _ _ _ _ hu_ne]
          exact h3u
        · have hu_t : u = t := by simpa using hu1
          subst hu_t
          simp only [askedLen] at hlenEq ⊢
          rw [dictLen_set_self, hlenEq]
          omega
      · simp only [askedLen] at h0 ⊢
        rw [dictGetD_set_ne _ _ _ _ hp0t]
        exact h0 p0 hp0pre hp0t
      · intro u hup hut
        have hupre : u ∉ pre := fun hc => hup (List.mem_append.mpr (Or.inl hc))
        have hu_t : u ≠ t := by
          intro hc
          exact hup (List.mem_append.mpr (Or.inr (by simp [hc])))
        have h0u := h0 u hupre hu_t
        simp only [askedLen] at h0u ⊢
        rw [dictGetD_set_ne _ _ _ _ hu_t]
        exact h0u
  · intro hx
    rw [h] at hx
    exact absurd hx (by decide)
  · exact hInv.create_le
  · exact hInv.store_le
  · exact hInv.create_consent
  · exact hInv.store_consent
  · exact Or.inl rfl
  · intro u hu
    have hut : u ≠ t := by
      rw [hct] at hu
      simpa [eq_comm] using hu
    simp only [askedLen]
    rw [dictGetD_set_ne _ _ _ _ hut]

/-- Preservation through the third answer for the last technology: the interview is
concluded and, when consent was given and a candidate record exists, the responses
are flushed to the store. -/
theorem susr_tq_complete_case (env : Env) (c : Chatbot) (input : String) (hInv : Inv c)
    (hreq : c.consent_requested = true)
    (h : c.ivs.current_step = "technical_questions")
    (hfull : 3 ≤ c.ivs.questions_asked_for_current_tech + 1)
    (t : String) (hct : c.ivs.current_tech = some t) (i : Nat)
    (hidx : listIndex c.ivs.tech_stack t = some i)
    (hnlt : ¬ i < c.ivs.tech_stack.length - 1) :
    Inv (store_user_response env c input).1 ∧
    stepRelation c.ivs.current_step ((store_user_response env c input).1).ivs.current_step ∧
    (∀ tech : String, c.ivs.current_tech ≠ some tech →
      askedLen (store_user_response env c input).1 tech = askedLen c tech) ∧
    (store_user_response env c input).1.consent_given = c.consent_given := by
  obtain ⟨-, hcnt, hsto⟩ := hInv.tq_phase h
  have heq : store_user_response env c input =
      (let s1 := mark_interview_complete (update_current_step (increment_questions_asked (store_answer c.ivs (some t) c.ivs.current_question input)) "complete")
       let c5 : Chatbot := { c with ivs := s1 }
       ((if c.consent_given && truthyId c.candidate_id then store_interview_responses c5 else c5), none)) := by
    simp [store_user_response, h, hct, hfull, hidx, hnlt, store_answer_def,
      increment_questions_asked, update_current_step, mark_interview_complete,
      interviewSteps, INTERVIEW_FLOW, listIndex]
  rw [heq]
  have hcomp : ∀ hnd : c.ivs.tech_stack.Nodup,
      (∀ u ∈ c.ivs.tech_stack,
        (dictGetD (dictSet c.ivs.asked_questions (some t) (dictGetD c.ivs.asked_questions (some t) [] ++ [{ question := c.ivs.current_question, answer := input }])) (some u) []).length = 3) ∧
      (∀ u : String, u ∉ c.ivs.tech_stack →
        (dictGetD (dictSet c.ivs.asked_questions (some t) (dictGetD c.ivs.asked_questions (some t) [] ++ [{ question := c.ivs.current_question, answer := input }])) (some u) []).length = 0) := by
    intro hnd
    obtain ⟨pre, t', post, hdec, hct2, h3, hlenEq, h0⟩ := hInv.tq_shape h hnd
    have htt : t' = t := Option.some.inj (hct2.symm.trans hct)
    rw [htt] at hdec hlenEq h0
    obtain ⟨htp, -, -⟩ := nodup_decomp pre post t (by rw [← hdec]; exact hnd)
    have hi : i = pre.length := by
      have hfirst := listIndex_of_append_cons pre post t htp
      rw [hdec, hfirst] at hidx
      exact (Option.some.inj hidx).symm
    have hpost : post = [] := by
      rw [hdec] at hnlt
      rcases post with _ | ⟨p0, ptl⟩
      · rfl
      · exfalso
        apply hnlt
        simp only [List.length_append, List.length_cons, hi]
        omega
    rw [hpost] at hdec
    constructor
    · intro u hu
      rw [hdec] at hu
      rcases List.mem_append.mp hu with hu1 | hu1
      · have hu_ne : u ≠ t := fun hc => htp (hc ▸ hu1)
        have h3u := h3 u hu1
        simp only [askedLen] at h3u
        rw [dictGetD_set_ne _ _ _ _ hu_ne]
        exact h3u
      · have hu_t : u = t := by simpa using hu1
        subst hu_t
        simp only [askedLen] at hlenEq
        rw [dictLen_set_self, hlenEq]
        omega
    · intro u hu
      rw [hdec] at hu
      have hupre : u ∉ pre := fun hc => hu (List.mem_append.mpr (Or.inl hc))
      have hu_t : u ≠ t := fun hc => hu (List.mem_append.mpr (Or.inr (by simp [hc])))
      have h0u := h0 u hupre hu_t
      simp only [askedLen] at h0u
      rw [dictGetD_set_ne _ _ _ _ hu_t]
      exact h0u
  by_cases hdb : (c.consent_given && truthyId c.candidate_id) = true
  · have hdbc : c.consent_given = true := (Bool.and_eq_true _ _ ▸ hdb).1
    simp only [hdb, if_true]
    refine ⟨⟨?_, ?_, ?_, ?_, ?_, ?_, ?_, ?_, ?_, ?_, ?_⟩, ?_, ?_, ?_⟩ <;>
      simp only [askedLen, sir_ivs, sir_candidate_id, sir_consent_given, sir_consent_requested,
        sir_gdpr, sir_db_create, store_answer_def, increment_questions_asked,
        update_current_step, mark_interview_complete]
    · decide
    · exact hInv.gdpr
    · exact fun _ => hreq
    · intro hx; exact absurd hx (by decide)
    · intro hx; exact absurd hx (by decide)
    · intro hx; exact absurd hx (by decide)
    · intro _ hnd
      exact hcomp (by simpa using hnd)
    · exact hInv.create_le
    · rcases sir_db_store { c with ivs := mark_interview_complete (update_current_step (increment_questions_asked (store_answer c.ivs (some t) c.ivs.current_question input)) "complete") } with hh | ⟨x, hh⟩ <;>
        simp only [store_answer_def, increment_questions_asked, update_current_step,
          mark_interview_complete] at hh <;> rw [hh] <;> simp [hsto]
    · intro hx
      rw [hdbc] at hx
      exact absurd hx (by simp)
    · intro hx
      rw [hdbc] at hx
      exact absurd hx (by simp)
    · exact Or.inr (by rw [h]; decide)
    · intro u hu
      have hut : u ≠ t := by
        rw [hct] at hu
        simpa [eq_comm] using hu
      rw [dictGetD_set_ne _ _ _ _ hut]
  · simp only [hdb, if_false, Bool.not_eq_true] at hdb ⊢
    simp only [hdb, Bool.false_eq_true, if_false]
    refine ⟨⟨?_, ?_, ?_, ?_, ?_, ?_, ?_, ?_, ?_, ?_, ?_⟩, ?_, ?_, ?_⟩ <;>
      simp only [store_answer_def, increment_questions_asked, update_current_step,
        mark_interview_complete]
    · decide
    · exact hInv.gdpr
    · exact fun _ => hreq
    · intro hx; exact absurd hx (by decide)
    · intro hx; exact absurd hx (by decide)
    · intro hx; exact absurd hx (by decide)
    · intro _ hnd
      exact hcomp (by simpa using hnd)
    · exact hInv.create_le
    · simp [hsto]
    · exact hInv.create_consent
    · intro _; exact hsto
    · exact Or.inr (by rw [h]; decide)
    · intro u hu
      have hut : u ≠ t := by
        rw [hct] at hu
        simpa [eq_comm] using hu
      simp only [askedLen]
      rw [dictGetD_set_ne _ _ _ _ hut]
/-- Master preservation lemma for `_store_user_response`: the invariant is
preserved, `current_step` moves by at most one position forward, recorded answers
grow only for the technology that was current when the turn began, and consent is
untouched. -/
theorem susr_spec (env : Env) (c : Chatbot) (input : String) (hInv : Inv c)
    (hreq : c.consent_requested = true) :
    Inv (store_user_response env c input).1 ∧
    stepRelation c.ivs.current_step ((store_user_response env c input).1).ivs.current_step ∧
    (∀ tech : String, c.ivs.current_tech ≠ some tech →
      askedLen (store_user_response env c input).1 tech = askedLen c tech) ∧
    (store_user_response env c input).1.consent_given = c.consent_given := by
  have hsm := hInv.step_mem
  simp only [allSteps, interviewSteps, INTERVIEW_FLOW, List.map, List.mem_append,
    List.mem_cons, List.mem_singleton, List.not_mem_nil, or_false] at hsm
  rcases hsm with (h | h | h | h | h | h | h) | h | h
  · exact susr_field_case env c input hInv hreq "name" "email" h (by decide)
      (by simp [store_user_response, h, interviewSteps, INTERVIEW_FLOW, listIndex])
      (by decide) (by decide) (by decide) (by decide)
  · exact susr_field_case env c input hInv hreq "email" "phone" h (by decide)
      (by simp [store_user_response, h, interviewSteps, INTERVIEW_FLOW, listIndex])
      (by decide) (by decide) (by decide) (by decide)
  · exact susr_field_case env c input hInv hreq "phone" "experience" h (by decide)
      (by simp [store_user_response, h, interviewSteps, INTERVIEW_FLOW, listIndex])
      (by decide) (by decide) (by decide) (by decide)
  · exact susr_field_case env c input hInv hreq "experience" "position" h (by decide)
      (by simp [store_user_response, h, interviewSteps, INTERVIEW_FLOW, listIndex])
      (by decide) (by decide) (by decide) (by decide)
  · exact susr_field_case env c input hInv hreq "position" "location" h (by decide)
      (by simp [store_user_response, h, interviewSteps, INTERVIEW_FLOW, listIndex])
      (by decide) (by decide) (by decide) (by decide)
  · exact susr_field_case env c input hInv hreq "location" "tech_stack" h (by decide)
      (by simp [store_user_response, h, interviewSteps, INTERVIEW_FLOW, listIndex])
      (by decide) (by decide) (by decide) (by decide)
  · exact susr_techstack_case env c input hInv hreq h
      (by simp [store_user_response, h, interviewSteps, INTERVIEW_FLOW, listIndex,
            parse_tech_stack_ne_nil, set_tech_stack, store_tech_questions,
            update_current_step, set_current_tech, create_candidate_record])
  · obtain ⟨⟨t, hct, htm⟩, hcnt, hsto⟩ := hInv.tq_phase h
    by_cases hfull : 3 ≤ c.ivs.questions_asked_for_current_tech + 1
    · obtain ⟨i, hidx⟩ := listIndex_isSome_of_mem _ _ htm
      by_cases hlt : i < c.ivs.tech_stack.length - 1
      · exact susr_tq_move_case env c input hInv hreq h hfull t hct i hidx hlt
      · exact susr_tq_complete_case env c input hInv hreq h hfull t hct i hidx hlt
    · exact susr_tq_stay_case env c input hInv hreq h hfull
  · have heq : store_user_response env c input = (c, none) := by
      simp [store_user_response, h, interviewSteps, INTERVIEW_FLOW, listIndex]
    rw [heq]
    exact ⟨hInv, Or.inl rfl, fun _ _ => rfl, rfl⟩

/-- The consent-gate turn changes only the consent flags and the display history. -/
theorem gate_spec (c : Chatbot) (input : String) (hInv : Inv c) :
    Inv (process_consent_response { c with consent_requested := true } input).1 ∧
    (process_consent_response { c with consent_requested := true } input).1.ivs = c.ivs := by
  unfold process_consent_response
  split
  · refine ⟨⟨hInv.step_mem, hInv.gdpr, fun _ => rfl, hInv.field_phase, hInv.tq_phase,
      hInv.tq_shape, hInv.comp_shape, hInv.create_le, hInv.store_le, ?_, ?_⟩, rfl⟩
    · intro hx; exact absurd hx (by simp [add_to_history])
    · intro hx; exact absurd hx (by simp [add_to_history])
  · split
    · exact ⟨⟨hInv.step_mem, hInv.gdpr, fun _ => rfl, hInv.field_phase, hInv.tq_phase,
        hInv.tq_shape, hInv.comp_shape, hInv.create_le, hInv.store_le, hInv.create_consent,
        hInv.store_consent⟩, rfl⟩
    · exact ⟨⟨hInv.step_mem, hInv.gdpr, fun _ => rfl, hInv.field_phase, hInv.tq_phase,
        hInv.tq_shape, hInv.comp_shape, hInv.create_le, hInv.store_le, hInv.create_consent,
        hInv.store_consent⟩, rfl⟩

/-- Master per-turn lemma for `process_user_input`. -/
theorem proc_spec (env : Env) (c : Chatbot) (input : String) (hInv : Inv c) :
    Inv (process_user_input env c input).1 ∧
    stepRelation c.ivs.current_step ((process_user_input env c input).1).ivs.current_step ∧
    (∀ tech : String, c.ivs.current_tech ≠ some tech →
      askedLen (process_user_input env c input).1 tech = askedLen c tech) := by
  by_cases h1 : pyLower (pyStrip input) = "exit"
  · simp only [process_user_input, h1, if_true]
    exact ⟨hInv, Or.inl (by trivial), fun _ _ => by trivial⟩
  · by_cases h2 : pyStrip input = ""
    · simp only [process_user_input, if_neg h1, if_pos h2]
      exact ⟨hInv, Or.inl (by trivial), fun _ _ => by trivial⟩
    · by_cases h3 : (c.gdpr_intro_shown && !c.consent_requested) = true
      · simp only [process_user_input, if_neg h1, if_neg h2, h3, if_true]
        obtain ⟨hi, hivs⟩ := gate_spec c input hInv
        rcases hpcr : process_consent_response { c with consent_requested := true } input with
          ⟨c2, or⟩
        rw [hpcr] at hi hivs
        dsimp only at hi hivs
        cases or with
        | some r =>
          dsimp only
          exact ⟨hi, Or.inl (by rw [hivs]), fun tech _ => by simp only [askedLen, hivs]⟩
        | none =>
          dsimp only
          exact ⟨hi, Or.inl (by rw [hivs]), fun tech _ => by simp only [askedLen, hivs]⟩
      · have hreq : c.consent_requested = true := by
          rw [hInv.gdpr] at h3
          revert h3
          cases c.consent_requested <;> simp
        by_cases h4 : (validate_input c.ivs.current_step input).valid = false
        · simp only [process_user_input, if_neg h1, if_neg h2, if_neg h3, h4, if_true]
          exact ⟨hInv, Or.inl (by trivial), fun _ _ => by trivial⟩
        · obtain ⟨hi2, hrel2, hgrow2, hcg2⟩ := susr_spec env c input hInv hreq
          rcases hsusr : store_user_response env c input with ⟨c2, oe⟩
          rw [hsusr] at hi2 hrel2 hgrow2
          dsimp only at hi2 hrel2 hgrow2
          cases oe with
          | some e =>
            simp only [process_user_input, if_neg h1, if_neg h2, if_neg h3, if_neg h4, hsusr]
            exact ⟨hi2, hrel2, hgrow2⟩
          | none =>
            obtain ⟨q, hq⟩ := gnr_shape env c2 input
            rcases hgnr : get_next_response env c2 input with ⟨c3, r3⟩
            rw [hgnr] at hq
            dsimp only at hq
            have hi3 : Inv c3 := by rw [hq]; exact inv_update_cq c2 q hi2
            have hstep3 : c3.ivs.current_step = c2.ivs.current_step := by rw [hq]
            have hasked3 : c3.ivs.asked_questions = c2.ivs.asked_questions := by rw [hq]
            cases r3 with
            | error e =>
              simp only [process_user_input, if_neg h1, if_neg h2, if_neg h3, if_neg h4, hsusr,
                hgnr]
              exact ⟨hi3, by rw [hstep3]; exact hrel2,
                fun tech ht => by simp only [askedLen, hasked3]; exact hgrow2 tech ht⟩
            | ok resp =>
              simp only [process_user_input, if_neg h1, if_neg h2, if_neg h3, if_neg h4, hsusr,
                hgnr]
              refine ⟨inv_add_to_history _ _ _ hi3, ?_, ?_⟩
              · simp only [add_to_history]
                rw [hstep3]
                exact hrel2
              · intro tech ht
                simp only [add_to_history, askedLen, hasked3]
                exact hgrow2 tech ht

theorem inv_foldl (turns : List Turn) :
    ∀ c : Chatbot, Inv c → Inv (turns.foldl stepTurn c) := by
  induction turns with
  | nil => exact fun c h => h
  | cons t rest ih => exact fun c h => ih _ ((proc_spec t.env c t.input h).1)

/-- Every state reachable from a fresh session satisfies the invariant. -/
theorem inv_run (turns : List Turn) : Inv (runSession turns) :=
  inv_foldl turns sessionStart inv_sessionStart

theorem runSession_snoc (turns : List Turn) (t : Turn) :
    runSession (turns ++ [t]) = stepTurn (runSession turns) t := by
  simp [runSession, List.foldl_append]

theorem askedLen_le_of_inv (c : Chatbot) (hInv : Inv c) (hnd : c.ivs.tech_stack.Nodup)
    (tech : String) : askedLen c tech ≤ 3 := by
  have hsm := hInv.step_mem
  simp only [allSteps, interviewSteps, INTERVIEW_FLOW, List.map, List.mem_append,
    List.mem_cons, List.mem_singleton, List.not_mem_nil, or_false] at hsm
  have hfield : c.ivs.current_step ∈ interviewSteps →
      askedLen c tech ≤ 3 := by
    intro hmem
    obtain ⟨ha, -, -⟩ := hInv.field_phase hmem
    simp [askedLen, ha, dictGetD, dictGet]
  rcases hsm with (h | h | h | h | h | h | h) | h | h
  · exact hfield (by rw [h]; decide)
  · exact hfield (by rw [h]; decide)
  · exact hfield (by rw [h]; decide)
  · exact hfield (by rw [h]; decide)
  · exact hfield (by rw [h]; decide)
  · exact hfield (by rw [h]; decide)
  · exact hfield (by rw [h]; decide)
  · obtain ⟨-, hcnt, -⟩ := hInv.tq_phase h
    obtain ⟨pre, t, post, hdec, hct, h3, hlenEq, h0⟩ := hInv.tq_shape h hnd
    by_cases hp : tech ∈ pre
    · rw [h3 tech hp]
    · by_cases ht : tech = t
      · subst ht
        rw [hlenEq]
        omega
      · rw [h0 tech hp ht]
        omega
  · obtain ⟨h3, h0⟩ := hInv.comp_shape h hnd
    by_cases hp : tech ∈ c.ivs.tech_stack
    · rw [h3 tech hp]
    · rw [h0 tech hp]
      omega

def failEnv : Env :=
  { oracle := fun _ _ => "", rand := 0 }

/-- C4: persistence calls are at-most-once and consent-gated. -/
theorem c4_persistence_at_most_once_and_consent_gated (turns : List Turn) :
    (runSession turns).db_create_calls.length ≤ 1 ∧
    (runSession turns).db_store_calls.length ≤ 1 ∧
    ((runSession turns).consent_given = false →
      (runSession turns).db_create_calls = [] ∧ (runSession turns).db_store_calls = []) := by
  have h := inv_run turns
  exact ⟨h.create_le, h.store_le, fun hc => ⟨h.create_consent hc, h.store_consent hc⟩⟩

def c4NoConsentTurns : List Turn :=
  [ { env := failEnv, input := "no" }, { env := failEnv, input := "Bob" } ]

theorem c4_witness :
    (runSession c4NoConsentTurns).db_create_calls = [] ∧
    (runSession c4NoConsentTurns).db_store_calls = [] :=
  (c4_persistence_at_most_once_and_consent_gated c4NoConsentTurns).2.2 (by decide)

/-- C5 counterexample: with the duplicate stack parsed from the answer `a, a`, the recorded
answers for technology `"a"` exceed three. -/
def c5DupTurns : List Turn :=
  [ { env := failEnv, input := "yes" },
    { env := failEnv, input := "Bob" },
    { env := failEnv, input := "b@c.de" },
    { env := failEnv, input := "1234567" },
    { env := failEnv, input := "3" },
    { env := failEnv, input := "Dev" },
    { env := failEnv, input := "here" },
    { env := failEnv, input := "a, a" },
    { env := failEnv, input := "ans one" },
    { env := failEnv, input := "ans two" },
    { env := failEnv, input := "ans three" },
    { env := failEnv, input := "ans four" } ]

theorem c5_counterexample :
    (runSession c5DupTurns).ivs.tech_stack = ["a", "a"] ∧
    askedLen (runSession c5DupTurns) "a" = 4 ∧
    3 < askedLen (runSession c5DupTurns) "a" := by
  refine ⟨?_, ?_, ?_⟩ <;> decide

/-- C5 (amended): with duplicate-free technology stacks, exactly three answers are
recorded per technology before moving on, the record never exceeds three, and it
grows only while the technology is current. -/
theorem c5_three_answers_per_distinct_tech (turns : List Turn)
    (hnd : (runSession turns).ivs.tech_stack.Nodup) :
    (∀ tech : String, askedLen (runSession turns) tech ≤ 3) ∧
    ((runSession turns).ivs.current_step = "technical_questions" →
      ∃ pre t post, (runSession turns).ivs.tech_stack = pre ++ t :: post ∧
        (runSession turns).ivs.current_tech = some t ∧
        (∀ u ∈ pre, askedLen (runSession turns) u = 3) ∧
        askedLen (runSession turns) t =
          (runSession turns).ivs.questions_asked_for_current_tech ∧
        (∀ u ∈ post, askedLen (runSession turns) u = 0)) ∧
    ((runSession turns).ivs.current_step = "complete" →
      ∀ tech ∈ (runSession turns).ivs.tech_stack, askedLen (runSession turns) tech = 3) ∧
    (∀ (t : Turn) (tech : String), (runSession turns).ivs.current_tech ≠ some tech →
      askedLen (runSession (turns ++ [t])) tech = askedLen (runSession turns) tech) := by
  have hInv := inv_run turns
  refine ⟨askedLen_le_of_inv _ hInv hnd, ?_, ?_, ?_⟩
  · intro hstep
    obtain ⟨pre, t, post, hdec, hct, h3, hlenEq, h0⟩ := hInv.tq_shape hstep hnd
    obtain ⟨htp, htpost, hdisj⟩ := nodup_decomp pre post t (by rw [← hdec]; exact hnd)
    refine ⟨pre, t, post, hdec, hct, h3, hlenEq, ?_⟩
    intro u hu
    have hupre : u ∉ pre := hdisj u hu
    have hut : u ≠ t := by
      intro hc
      rw [hc] at hu
      exact htpost hu
    exact h0 u hupre hut
  · intro hstep tech htech
    exact (hInv.comp_shape hstep hnd).1 tech htech
  · intro t tech hct
    rw [runSession_snoc]
    exact (proc_spec t.env (runSession turns) t.input hInv).2.2 tech hct

def c5GoodTurns : List Turn :=
  [ { env := failEnv, input := "yes" },
    { env := failEnv, input := "Bob" },
    { env := failEnv, input := "b@c.de" },
    { env := failEnv, input := "1234567" },
    { env := failEnv, input := "3" },
    { env := failEnv, input := "Dev" },
    { env := failEnv, input := "here" },
    { env := failEnv, input := "python, react" },
    { env := failEnv, input := "ans one" } ]

theorem c5_witness : askedLen (runSession c5GoodTurns) "python" ≤ 3 :=
  (c5_three_answers_per_distinct_tech c5GoodTurns (by decide)).1 "python"

/-- C6: from a fresh session, `current_step` starts at the name step and every turn
either keeps it or advances it to its successor in the fixed order. -/
theorem c6_current_step_moves_forward (turns : List Turn) (t : Turn) :
    (runSession []).ivs.current_step = "name" ∧
    ((runSession (turns ++ [t])).ivs.current_step = (runSession turns).ivs.current_step ∨
      ((runSession turns).ivs.current_step,
        (runSession (turns ++ [t])).ivs.current_step) ∈ succPair) := by
  refine ⟨rfl, ?_⟩
  rw [runSession_snoc]
  have h := (proc_spec t.env (runSession turns) t.input (inv_run turns)).2.1
  rcases h with h | h
  · exact Or.inl h.symm
  · exact Or.inr h

theorem padQuestionsFuel_eq (defaults : List String) (h3 : defaults.length = 3) :
    ∀ (n : Nat) (q : List String), 3 - q.length ≤ n →
      padQuestionsFuel defaults n q = q ++ defaults.drop q.length := by
  intro n
  induction n with
  | zero =>
    intro q hq
    rw [padQuestionsFuel, List.drop_eq_nil_of_le (by omega), List.append_nil]
  | succ n ih =>
    intro q hq
    by_cases hlt : q.length < 3
    · rw [padQuestionsFuel, if_pos hlt]
      rw [ih (q ++ [defaults.getD q.length ""]) (by simp; omega)]
      have hidx : q.length < defaults.length := by omega
      rw [List.getD_eq_getElem defaults "" hidx]
      rw [List.drop_eq_getElem_cons hidx]
      simp
    · rw [padQuestionsFuel, if_neg hlt]
      rw [List.drop_eq_nil_of_le (by omega), List.append_nil]

theorem padQuestions_eq (defaults : List String) (h3 : defaults.length = 3)
    (q : List String) : padQuestions defaults q = q ++ defaults.drop q.length :=
  padQuestionsFuel_eq defaults h3 3 q (by omega)

theorem techQuestionsFor_eq (env : Env) (tech : String) :
    techQuestionsFor env tech =
      (let parsed := parse_questions_from_response
        (generate_response env "tech_question_generation" [("technology", tech)])
       (parsed ++ (get_default_questions tech).drop parsed.length).take 3) := by
  simp only [techQuestionsFor]
  rw [padQuestions_eq _ (by simp [get_default_questions]) _]

theorem techQuestionsFor_length (env : Env) (tech : String) :
    (techQuestionsFor env tech).length = 3 := by
  rw [techQuestionsFor_eq]
  have hd : (get_default_questions tech).length = 3 := by simp [get_default_questions]
  simp only [List.length_take, List.length_append, List.length_drop, hd]
  omega

theorem gtq_fold_notmem (env : Env) (stack : List String) :
    ∀ (d : List (String × List String)) (tech : String), tech ∉ stack →
      dictGet (stack.foldl (fun acc t => dictSet acc t (techQuestionsFor env t)) d) tech =
        dictGet d tech := by
  induction stack with
  | nil => intro d tech _; rfl
  | cons s rest ih =>
    intro d tech h
    have hs : tech ≠ s := fun hc => h (by simp [hc])
    have hr : tech ∉ rest := fun hc => h (by simp [hc])
    simp only [List.foldl]
    rw [ih _ tech hr, dictGet_dictSet_ne _ _ _ _ hs]

theorem gtq_lookup (env : Env) (stack : List String) :
    ∀ (d : List (String × List String)) (tech : String), tech ∈ stack →
      dictGet (stack.foldl (fun acc t => dictSet acc t (techQuestionsFor env t)) d) tech =
        some (techQuestionsFor env tech) := by
  induction stack with
  | nil => intro d tech h; simp at h
  | cons s rest ih =>
    intro d tech h
    simp only [List.foldl]
    by_cases hts : tech ∈ rest
    · exact ih _ tech hts
    · have hts2 : tech = s := by
        rcases List.mem_cons.mp h with h1 | h1
        · exact h1
        · exact absurd h1 hts
      subst hts2
      rw [gtq_fold_notmem env rest _ tech hts, dictGet_dictSet_self]

/-- C7: `generate_tech_questions` yields, for every technology of the stack, exactly
three questions: the parsed numbered lines of the collaborator response, padded in
order from the default questions and truncated to three; a line qualifies only with
a trimmed `1.`/`2.`/`3.` prefix. -/
theorem c7_generate_tech_questions (env : Env) (tech_stack : List String) (tech : String)
    (h : tech ∈ tech_stack) :
    dictGet (generate_tech_questions env tech_stack) tech =
      some (techQuestionsFor env tech) ∧
    (techQuestionsFor env tech).length = 3 ∧
    techQuestionsFor env tech =
      (let parsed := parse_questions_from_response
        (generate_response env "tech_question_generation" [("technology", tech)])
       (parsed ++ (get_default_questions tech).drop parsed.length).take 3) ∧
    parse_questions_from_response "1. What is X?\n2. Explain Y.\n3. Compare Z." =
      ["What is X?", "Explain Y.", "Compare Z."] ∧
    parse_questions_from_response "- What is X?" = [] := by
  refine ⟨?_, techQuestionsFor_length env tech, techQuestionsFor_eq env tech, by decide, by decide⟩
  exact gtq_lookup env tech_stack [] tech h

theorem c7_witness :
    dictGet (generate_tech_questions failEnv ["python"]) "python" =
      some (techQuestionsFor failEnv "python") ∧
    techQuestionsFor failEnv "python" = get_default_questions "python" :=
  ⟨(c7_generate_tech_questions failEnv ["python"] "python" (by decide)).1, by decide⟩

/-- Specification-side restatement of §4.2 `parseTechStack`: split on commas, trim
and lowercase each token, drop empty tokens, truncate to `maxTechs`, and substitute
`["general"]` when the result is empty. -/
def parseTechStackSpec (text : String) (maxTechs : Nat) : List String :=
  let tokens := (pySplitChar ',' text).filterMap (fun tok =>
    let t := pyLower (pyStrip tok)
    if t = "" then none else some t)
  let tokens := tokens.take maxTechs
  if tokens.isEmpty then ["general"] else tokens

theorem filter_map_eq_filterMap (f : String → String) (l : List String) :
    (l.map f).filter (fun t => t ≠ "") =
      l.filterMap (fun tok => let t := f tok; if t = "" then none else some t) := by
  induction l with
  | nil => rfl
  | cons a rest ih =>
    simp only [List.map_cons, List.filter_cons, List.filterMap_cons]
    by_cases ha : f a = ""
    · simp only [ha]
      simp
      simpa using ih
    · simp only [if_neg ha]
      simp [ha]
      simpa using ih

/-- C8: the source `parse_tech_stack` agrees with the specification wording, and on
the two examples of §8. -/
theorem c8_parse_tech_stack :
    (∀ (s : String) (n : Nat), parse_tech_stack s n = parseTechStackSpec s n) ∧
    parse_tech_stack "Python, React, MongoDB, Docker, Kubernetes" =
      ["python", "react", "mongodb", "docker"] ∧
    parse_tech_stack "" = ["general"] := by
  refine ⟨?_, by decide, by decide⟩
  intro s n
  simp only [parse_tech_stack, parseTechStackSpec,
    filter_map_eq_filterMap (fun tok => pyLower (pyStrip tok)) (pySplitChar ',' s),
    List.isEmpty_iff]

/-- C1: the exit sentinel (any case, surrounding whitespace) makes
`process_user_input` raise `AttributeError` — `InterviewStateManager` has no
`mark_interview_finished` — with no state change and no closing acknowledgment, and
`can_continue_typing` raises `AttributeError` on every call instead of returning
`false`. -/
theorem c1_exit_raises_attribute_error :
    (∀ (env : Env) (c : Chatbot) (input : String), pyLower (pyStrip input) = "exit" →
      process_user_input env c input =
        (c, Except.error (PyErr.attributeError "mark_interview_finished"))) ∧
    (∀ c : Chatbot, can_continue_typing c =
      Except.error (PyErr.attributeError "is_interview_finished")) := by
  constructor
  · intro env c input h
    simp [process_user_input, h]
  · intro c
    rfl

theorem c1_witness :
    process_user_input failEnv sessionStart " Exit " =
      (sessionStart, Except.error (PyErr.attributeError "mark_interview_finished")) :=
  c1_exit_raises_attribute_error.1 failEnv sessionStart " Exit " (by decide)

def okNonempty : Except PyErr String → Bool
  | Except.ok m => m ≠ ""
  | Except.error _ => false

/-- A full session against an always-failing generation collaborator: consent,
seven profile answers with a single technology, and three technical answers. -/
def c2FailTurns : List Turn :=
  [ { env := failEnv, input := "yes" },
    { env := failEnv, input := "Alice Smith" },
    { env := failEnv, input := "alice@example.com" },
    { env := failEnv, input := "1234567890" },
    { env := failEnv, input := "5" },
    { env := failEnv, input := "Developer" },
    { env := failEnv, input := "Berlin" },
    { env := failEnv, input := "python" },
    { env := failEnv, input := "answer one" },
    { env := failEnv, input := "answer two" },
    { env := failEnv, input := "answer three" } ]

/-- C2: with an always-failing collaborator the first ten turns return non-empty
deterministic fallback text and the state machine reaches `complete`, but the final
turn — which stores the last answer and should deliver the conclusion — raises
`AttributeError` (`mark_interview_finished` does not exist), so no turn ever reports
the interview as finished. -/
theorem c2_llm_failure_fallbacks_then_attribute_error :
    (runOutputs sessionStart c2FailTurns).length = 11 ∧
    ((runOutputs sessionStart c2FailTurns).take 10).all okNonempty = true ∧
    (runOutputs sessionStart c2FailTurns).getD 10 (Except.ok "") =
      Except.error (PyErr.attributeError "mark_interview_finished") ∧
    (runSession c2FailTurns).ivs.current_step = "complete" ∧
    (runSession c2FailTurns).ivs.interview_complete = true := by
  refine ⟨?_, ?_, ?_, ?_, ?_⟩ <;> decide

/-- C3 counterexample: after the unrecognized consent answer maybe, the fixed
re-prompt is returned and `current_step` stays `"name"`, but `consent_requested`
becomes `true`, so the next input — the affirmative phrase `"yes"` — is NOT
interpreted as a consent answer: it is stored as the `name` field and consent stays
not given. -/
theorem c3_counterexample :
    (process_user_input failEnv sessionStart "maybe").2 =
      Except.ok "Please respond with \x27yes\x27 or \x27no\x27 to indicate whether you consent to storing your interview data." ∧
    (process_user_input failEnv sessionStart "maybe").1.ivs.current_step = "name" ∧
    (process_user_input failEnv sessionStart "maybe").1.consent_requested = true ∧
    (process_user_input failEnv (process_user_input failEnv sessionStart "maybe").1 "yes").1.consent_given = false ∧
    dictGet (process_user_input failEnv (process_user_input failEnv sessionStart "maybe").1 "yes").1.ivs.candidate_info "name" = some "yes" ∧
    (process_user_input failEnv (process_user_input failEnv sessionStart "maybe").1 "yes").1.ivs.current_step = "email" := by
  refine ⟨?_, ?_, ?_, ?_, ?_, ?_⟩ <;> decide

/-- C3 (amended): an unrecognized non-empty consent answer returns the fixed yes/no
re-prompt and leaves the interview state (hence `current_step`) unchanged, but it
closes the consent gate permanently: `consent_requested` becomes `true`, so the
following input is processed as the first interview field answer and consent remains
not given. -/
theorem c3_unrecognized_consent_closes_gate (env : Env) (c : Chatbot) (input : String)
    (hg : c.gdpr_intro_shown = true) (hr : c.consent_requested = false)
    (hx : pyLower (pyStrip input) ≠ "exit") (he : pyStrip input ≠ "")
    (hy : pyLower input ∉ affirmativePhrases) (hn : pyLower input ∉ negativePhrases) :
    process_user_input env c input =
      ({ c with consent_requested := true },
        Except.ok "Please respond with \x27yes\x27 or \x27no\x27 to indicate whether you consent to storing your interview data.") := by
  have hcond : (c.gdpr_intro_shown && !c.consent_requested) = true := by
    rw [hg, hr]
    rfl
  simp [process_user_input, if_neg hx, if_neg he, hcond, process_consent_response, hy, hn]

theorem c3_amended_witness :
    process_user_input failEnv sessionStart "maybe" =
      ({ sessionStart with consent_requested := true },
        Except.ok "Please respond with \x27yes\x27 or \x27no\x27 to indicate whether you consent to storing your interview data.") :=
  c3_unrecognized_consent_closes_gate failEnv sessionStart "maybe" (by decide) (by decide)
    (by decide) (by decide) (by decide) (by decide)

/-- C9: only the email and phone steps are validated — every other step accepts any
input — and on a failed validation the turn returns the generated phrasing, or the
raw validator error text when generation fails, with no state change at all. -/
theorem c9_validation_gates_email_and_phone (turns : List Turn) (env : Env) (input : String) :
    (∀ step input2 : String, step ∉ (["email", "phone"] : List String) →
      (validate_input step input2).valid = true) ∧
    (((runSession turns).ivs.current_step = "email" ∨
        (runSession turns).ivs.current_step = "phone") →
      (validate_input (runSession turns).ivs.current_step input).valid = false →
      pyLower (pyStrip input) ≠ "exit" → pyStrip input ≠ "" →
      process_user_input env (runSession turns) input =
        (runSession turns,
          Except.ok (
            let g := generate_response env "validation_error" [("interviewer_name", interviewer_name), ("company_name", company_name), ("field_type", (validate_input (runSession turns).ivs.current_step input).field_type), ("error_message", (validate_input (runSession turns).ivs.current_step input).error)];
            if g = "" then (validate_input (runSession turns).ivs.current_step input).error
            else g))) ∧
    (validate_input "email" "a@b.co").valid = true ∧
    (validate_input "email" "not-an-email").valid = false ∧
    (validate_input "email" "not-an-email").field_type = "email address" ∧
    (validate_input "phone" "+49 (30) 1234-567").valid = true ∧
    (validate_input "phone" "123456").valid = false := by
  refine ⟨?_, ?_, by decide, by decide, by decide, by decide, by decide⟩
  · intro step input2 hstep
    have h1 : step ≠ "email" := fun hc => hstep (by simp [hc])
    have h2 : step ≠ "phone" := fun hc => hstep (by simp [hc])
    simp [validate_input, h1, h2]
  · intro h5 h6 h7 h8
    have hInv := inv_run turns
    have hreq : (runSession turns).consent_requested = true := by
      apply hInv.consent_req
      rcases h5 with h5 | h5 <;> rw [h5] <;> decide
    have hcond : ((runSession turns).gdpr_intro_shown &&
        !(runSession turns).consent_requested) = false := by
      rw [hInv.gdpr, hreq]
      rfl
    simp [process_user_input, if_neg h7, if_neg h8, hcond, h6]

def c9Turns : List Turn :=
  [ { env := failEnv, input := "yes" }, { env := failEnv, input := "Ann" } ]

theorem c9_witness :
    process_user_input failEnv (runSession c9Turns) "not-an-email" =
      (runSession c9Turns,
        Except.ok "That doesn\x27t appear to be a valid email address. Please provide a valid email in the format example@domain.com.") := by
  have h := (c9_validation_gates_email_and_phone c9Turns failEnv "not-an-email").2.1
    (by decide) (by decide) (by decide) (by decide)
  simpa using h

/-- C10: `reset_chat` is idempotent and yields the documented initial state: step
`"name"`, no candidate info, no technology data, cleared consent flags, no display
history. -/
theorem c10_reset_chat_idempotent (c : Chatbot) :
    reset_chat (reset_chat c) = reset_chat c ∧
    (reset_chat c).ivs = stateReset ∧
    (reset_chat c).ivs.current_step = "name" ∧
    (reset_chat c).ivs.candidate_info = [] ∧
    (reset_chat c).ivs.tech_stack = [] ∧
    (reset_chat c).ivs.asked_questions = [] ∧
    (reset_chat c).ivs.tech_questions = [] ∧
    (reset_chat c).consent_requested = false ∧
    (reset_chat c).consent_given = false ∧
    (reset_chat c).gdpr_intro_shown = false ∧
    (reset_chat c).candidate_id = none ∧
    (reset_chat c).chat_history = [] :=
  ⟨rfl, rfl, rfl, rfl, rfl, rfl, rfl, rfl, rfl, rfl, rfl, rfl⟩

def c6Turn : Turn :=
  { env := failEnv, input := "hello" }

theorem c6_witness :
    (runSession []).ivs.current_step = "name" ∧
    ((runSession ([] ++ [c6Turn])).ivs.current_step = (runSession []).ivs.current_step ∨
      ((runSession []).ivs.current_step,
        (runSession ([] ++ [c6Turn])).ivs.current_step) ∈ succPair) :=
  c6_current_step_moves_forward [] c6Turn

theorem c8_witness :
    parse_tech_stack "Java, Go" 4 = parseTechStackSpec "Java, Go" 4 :=
  c8_parse_tech_stack.1 "Java, Go" 4

theorem c10_witness :
    reset_chat (reset_chat sessionStart) = reset_chat sessionStart :=
  (c10_reset_chat_idempotent sessionStart).1
